import Mathlib

/-!
# CAT of a fixed-payment personal loan (`ejemplos/go/prestamo_personal_basico.go`)

Shallow embedding of the numeric core of the program: `CalcularVPN`,
`CalcularDerivadaVPN`, `CalcularTIR` and `CalcularCAT`.

Modelling conventions.

* The program computes in `float64`; the embedding computes in exact arithmetic
  over an arbitrary linearly ordered field `K` (instantiated at `ℚ` to evaluate
  the functions on concrete inputs and at `ℝ` to speak of derivatives).
  Rounding, overflow, infinities and NaN are not modelled.
* `math.Pow(x, float64(i))` with a loop index `i` is `x ^ i` (both give `1` at
  `i = 0`, also for `x = 0`).
* A quotient with divisor `0` has the value `0` in a field of Lean; in
  `float64` it is an infinity or a NaN. The statements below describe the
  program on the runs in which every divisor is non-zero, and the concrete
  evaluations never divide by zero.
* `Traza`, `CalcularTIR.traza` and `CalcularTIR.corrida` observe a run of the
  solver (how it ended, how many updates it computed) without changing what it
  returns; `iterado`, `criterioA`, `criterioB`, `anualidad`, `denominadorPago`
  and `desvio` name the quantities in which the properties are stated.
* `plazoMeses` is an integer: `int(plazoMeses)` is the number of iterations of
  the loop that appends the payments (none for a negative term) and
  `math.Pow(1+tasaMensual, plazoMeses)` is an integer power. Fractional terms
  are not modelled.
-/

namespace CalculoCAT

variable {K : Type*} [LinearOrderedField K]

/-! ## The evaluators -/

/-- Body of the loop `for i, flujo := range flujos` of `CalcularVPN`: the
flows still to visit, the index of the next one and the accumulator `vpn`. -/
def CalcularVPN.loop (tasa : K) : List K → ℕ → K → K
  | [], _, vpn => vpn
  | flujo :: resto, i, vpn =>
      CalcularVPN.loop tasa resto (i + 1) (vpn + flujo / (1 + tasa) ^ i)

/-- Net present value of the flows `flujos` at the rate `tasa`
(`func CalcularVPN`). -/
def CalcularVPN (flujos : List K) (tasa : K) : K :=
  CalcularVPN.loop tasa flujos 0 0

/-- Body of the loop of `CalcularDerivadaVPN`; the flow of index `0` is
skipped by the test `if i > 0`. -/
def CalcularDerivadaVPN.loop (tasa : K) : List K → ℕ → K → K
  | [], _, derivada => derivada
  | flujo :: resto, i, derivada =>
      CalcularDerivadaVPN.loop tasa resto (i + 1)
        (if i > 0 then derivada - (i : K) * flujo / (1 + tasa) ^ (i + 1) else derivada)

/-- Derivative of the net present value with respect to the rate
(`func CalcularDerivadaVPN`). -/
def CalcularDerivadaVPN (flujos : List K) (tasa : K) : K :=
  CalcularDerivadaVPN.loop tasa flujos 0 0

/-! ## The Newton-Raphson solver -/

/-- The constant `tolerancia := 1e-10` of `CalcularTIR`. -/
def tolerancia : K := 1e-10

/-- The constant `maxIteraciones := 1000` of `CalcularTIR`. -/
def maxIteraciones : ℕ := 1000

/-- The initial estimate `tasa := 0.1` of `CalcularTIR`. -/
def tasaInicial : K := 0.1

/-- The loop `for i := 0; i < maxIteraciones; i++` of `CalcularTIR`, by the
number of iterations that remain; `tasa` is the loop variable of that name.
When no iteration remains the statement after the loop returns `tasa`. -/
def CalcularTIR.loop (flujos : List K) : ℕ → K → K
  | 0, tasa => tasa
  | restantes + 1, tasa =>
      let vpn := CalcularVPN flujos tasa
      if |vpn| < tolerancia then tasa
      else
        let derivada := CalcularDerivadaVPN flujos tasa
        let nuevaTasa := tasa - vpn / derivada
        if |nuevaTasa - tasa| < tolerancia then nuevaTasa
        else CalcularTIR.loop flujos restantes nuevaTasa

/-- Monthly internal rate of return of the flows (`func CalcularTIR`). -/
def CalcularTIR (flujos : List K) : K :=
  CalcularTIR.loop flujos maxIteraciones tasaInicial

/-- The three ways in which the loop of `CalcularTIR` ends: the first
`return tasa` (criterion A), the `return nuevaTasa` (criterion B), and the
`return tasa` after the loop. -/
inductive Terminacion
  | porValor
  | porPaso
  | agotado
  deriving DecidableEq, Repr

/-- What a run of `CalcularTIR` returns, together with two observations of the
run: how many times `nuevaTasa` was computed and how the loop ended. -/
structure Traza (K : Type*) where
  resultado : K
  actualizaciones : ℕ
  terminacion : Terminacion

/-- The loop of `CalcularTIR` with the two observations recorded; `hechas` is
the number of updates computed so far. Its `resultado` is that of
`CalcularTIR.loop` (`CalcularTIR.traza_resultado`). -/
def CalcularTIR.traza (flujos : List K) : ℕ → K → ℕ → Traza K
  | 0, tasa, hechas => ⟨tasa, hechas, Terminacion.agotado⟩
  | restantes + 1, tasa, hechas =>
      let vpn := CalcularVPN flujos tasa
      if |vpn| < tolerancia then ⟨tasa, hechas, Terminacion.porValor⟩
      else
        let derivada := CalcularDerivadaVPN flujos tasa
        let nuevaTasa := tasa - vpn / derivada
        if |nuevaTasa - tasa| < tolerancia then ⟨nuevaTasa, hechas + 1, Terminacion.porPaso⟩
        else CalcularTIR.traza flujos restantes nuevaTasa (hechas + 1)

/-- The observed run of `CalcularTIR` on `flujos`. -/
def CalcularTIR.corrida (flujos : List K) : Traza K :=
  CalcularTIR.traza flujos maxIteraciones tasaInicial 0

/-! ## The CAT -/

/-- The loop `for i := 0; i < int(plazoMeses); i++ \x7b flujos = append(flujos, pago) \x7d`
of `CalcularCAT`, by the number of iterations that remain. -/
def agregarPagos (pago : K) : ℕ → List K → List K
  | 0, flujos => flujos
  | restantes + 1, flujos => agregarPagos pago restantes (flujos ++ [pago])

/-- The value `pagoMensual` computed by `CalcularCAT`. -/
def pagoMensual (montoCredito : K) (plazoMeses : ℤ) (tasaInteresAnual : K) : K :=
  let tasaMensual := tasaInteresAnual / 12
  montoCredito * (tasaMensual * (1 + tasaMensual) ^ plazoMeses)
    / ((1 + tasaMensual) ^ plazoMeses - 1)

/-- The slice `flujos` that `CalcularCAT` builds and hands to `CalcularTIR`. -/
def flujosCAT (montoCredito : K) (plazoMeses : ℤ)
    (tasaInteresAnual comisionApertura comisionesMensuales seguro otrosCostos : K) : List K :=
  let pagoMensual := pagoMensual montoCredito plazoMeses tasaInteresAnual
  let montoNeto := montoCredito - comisionApertura - otrosCostos
  agregarPagos (-(pagoMensual + comisionesMensuales + seguro)) plazoMeses.toNat [montoNeto]

/-- Annual total cost, in percent (`func CalcularCAT`). -/
def CalcularCAT (montoCredito : K) (plazoMeses : ℤ)
    (tasaInteresAnual comisionApertura comisionesMensuales seguro otrosCostos : K) : K :=
  let flujos := flujosCAT montoCredito plazoMeses tasaInteresAnual comisionApertura
    comisionesMensuales seguro otrosCostos
  let cat := CalcularTIR flujos * 12 * 100
  cat

/-! ## The Newton iteration as a sequence -/

/-- The value `nuevaTasa` that one iteration of `CalcularTIR` computes from
`tasa`. -/
def newtonStep (flujos : List K) (tasa : K) : K :=
  tasa - CalcularVPN flujos tasa / CalcularDerivadaVPN flujos tasa

/-- The Newton iterates from the seed: `iterado flujos 0 = 0.1` and
`iterado flujos (k + 1) = newtonStep flujos (iterado flujos k)`. -/
def iterado (flujos : List K) : ℕ → K
  | 0 => tasaInicial
  | k + 1 => newtonStep flujos (iterado flujos k)

/-- Criterion A at `tasa`: the test `math.Abs(vpn) < tolerancia`. -/
def criterioA (flujos : List K) (tasa : K) : Prop :=
  |CalcularVPN flujos tasa| < tolerancia

/-- Criterion B at `tasa`: the test `math.Abs(nuevaTasa-tasa) < tolerancia`. -/
def criterioB (flujos : List K) (tasa : K) : Prop :=
  |newtonStep flujos tasa - tasa| < tolerancia

/-- The sum of the discount factors `1/x + 1/x^2 + ... + 1/x^m` of `m` monthly
payments at the gross rate `x = 1 + tasa`; it is the factor by which
`CalcularVPN` multiplies the constant payment of the built sequence
(`CalcularVPN_cons_replicate`). -/
def anualidad (x : K) (m : ℕ) : K :=
  ∑ i in Finset.range m, 1 / x ^ (i + 1)

/-- The divisor `math.Pow(1+tasaMensual, plazoMeses) - 1` of the expression
that `CalcularCAT` assigns to `pagoMensual` (`pagoMensual_eq_div`). -/
def denominadorPago (plazoMeses : ℤ) (tasaInteresAnual : K) : K :=
  (1 + tasaInteresAnual / 12) ^ plazoMeses - 1

/-- On a series `[a, -c]` of one payment, whose net present value vanishes at
the gross rate `c / a`: the relative deviation `1 - (a / c) * (1 + tasa)` of
the gross rate `1 + tasa` from that root. One Newton update squares it
(`desvio_newtonStep`). -/
def desvio (a c tasa : K) : K :=
  1 - a / c * (1 + tasa)

/-- The sum `1/x^2 + 2/x^3 + ... + m/x^(m+1)`, minus the derivative of
`anualidad x m` with respect to `x`; it is the factor by which
`CalcularDerivadaVPN` multiplies the constant payment of the built sequence
(`CalcularDerivadaVPN_cons_replicate`). -/
def anualidadPrima (x : K) (m : ℕ) : K :=
  ∑ i in Finset.range m, ((i : K) + 1) / x ^ (i + 2)

/-- On the series `a, -c, ..., -c` of `m` payments: minus the net present value
at the gross rate `x = 1 + tasa` (`CalcularVPN_eq_neg_residuo`). -/
def residuo (a c : K) (m : ℕ) (x : K) : K :=
  c * anualidad x m - a

/-- On the series `a, -c, ..., -c` of `m` payments: the Newton update of
`CalcularTIR` written on the gross rate `x = 1 + tasa`
(`newtonStep_eq_newtonBruto`). -/
def newtonBruto (a c : K) (m : ℕ) (x : K) : K :=
  x + residuo a c m x / (c * anualidadPrima x m)

instance (flujos : List K) (tasa : K) : Decidable (criterioA flujos tasa) := by
  unfold criterioA; infer_instance

instance (flujos : List K) (tasa : K) : Decidable (criterioB flujos tasa) := by
  unfold criterioB; infer_instance

/-! ## The evaluators as sums -/

theorem CalcularVPN.loop_vpn_eq_sum (tasa : K) (flujos : List K) (i : ℕ) (vpn : K) :
    CalcularVPN.loop tasa flujos i vpn
      = vpn + ∑ j in Finset.range flujos.length, flujos.getD j 0 / (1 + tasa) ^ (i + j) := by
  induction flujos generalizing i vpn with
  | nil => simp [CalcularVPN.loop]
  | cons flujo resto ih =>
    rw [CalcularVPN.loop, ih, List.length_cons, Finset.sum_range_succ']
    simp only [List.getD_cons_succ, List.getD_cons_zero, add_zero]
    have : ∀ j, i + 1 + j = i + (j + 1) := fun j => by omega
    simp only [this]
    ring

theorem CalcularDerivadaVPN.loop_derivada_eq_sum (tasa : K) (flujos : List K) (i : ℕ)
    (derivada : K) :
    CalcularDerivadaVPN.loop tasa flujos i derivada
      = derivada + ∑ j in Finset.range flujos.length,
          -(((i + j : ℕ) : K) * flujos.getD j 0 / (1 + tasa) ^ (i + j + 1)) := by
  induction flujos generalizing i derivada with
  | nil => simp [CalcularDerivadaVPN.loop]
  | cons flujo resto ih =>
    rw [CalcularDerivadaVPN.loop, ih, List.length_cons, Finset.sum_range_succ']
    simp only [List.getD_cons_succ, List.getD_cons_zero, add_zero]
    have : ∀ j, i + 1 + j = i + (j + 1) := fun j => by omega
    simp only [this]
    by_cases hi : i > 0
    · simp only [hi, if_true]; ring
    · have : i = 0 := by omega
      subst this
      simp

/-- C1. `CalcularVPN(flujos, tasa)` is the sum over the indices `i` of `flujos`
of `flujos[i] / (1+tasa)^i`; it is `0` for the empty sequence. -/
theorem CalcularVPN_eq_sum (flujos : List K) (tasa : K) :
    CalcularVPN flujos tasa
        = ∑ i in Finset.range flujos.length, flujos.getD i 0 / (1 + tasa) ^ i
      ∧ CalcularVPN ([] : List K) tasa = 0 := by
  constructor
  · rw [CalcularVPN, CalcularVPN.loop_vpn_eq_sum]; simp
  · rfl

theorem CalcularDerivadaVPN_eq_sum_range (flujos : List K) (tasa : K) :
    CalcularDerivadaVPN flujos tasa
      = ∑ i in Finset.range flujos.length,
          -((i : K) * flujos.getD i 0 / (1 + tasa) ^ (i + 1)) := by
  rw [CalcularDerivadaVPN, CalcularDerivadaVPN.loop_derivada_eq_sum]; simp

/-- C2. `CalcularDerivadaVPN(flujos, tasa)` is the sum over `i = 1..n` of
`-i * flujos[i] / (1+tasa)^(i+1)`, and it does not depend on `flujos[0]`. -/
theorem CalcularDerivadaVPN_eq_sum (flujos : List K) (tasa : K) :
    CalcularDerivadaVPN flujos tasa
        = ∑ i in Finset.Ico 1 flujos.length,
            -(i : K) * flujos.getD i 0 / (1 + tasa) ^ (i + 1)
      ∧ ∀ (a b : K) (resto : List K),
          CalcularDerivadaVPN (a :: resto) tasa = CalcularDerivadaVPN (b :: resto) tasa := by
  constructor
  · rw [CalcularDerivadaVPN_eq_sum_range]
    cases flujos with
    | nil => simp
    | cons a resto =>
      rw [List.length_cons, Finset.range_eq_Ico, Finset.sum_eq_sum_Ico_succ_bot (by omega)]
      simp only [Nat.cast_zero, zero_mul, zero_div, neg_zero, zero_add]
      refine Finset.sum_congr rfl fun i _ => ?_
      ring
  · intro a b resto
    simp only [CalcularDerivadaVPN_eq_sum_range, List.length_cons, Finset.sum_range_succ']
    simp

/-! ## The cash-flow sequence built by `CalcularCAT` -/

theorem agregarPagos_eq {α : Type*} (pago : α) (n : ℕ) (flujos : List α) :
    agregarPagos pago n flujos = flujos ++ List.replicate n pago := by
  induction n generalizing flujos with
  | zero => simp [agregarPagos]
  | succ n ih =>
    rw [agregarPagos, ih, List.append_assoc, List.replicate_succ]
    rfl

theorem flujosCAT_eq (montoCredito : K) (plazoMeses : ℤ)
    (tasaInteresAnual comisionApertura comisionesMensuales seguro otrosCostos : K) :
    flujosCAT montoCredito plazoMeses tasaInteresAnual comisionApertura comisionesMensuales
        seguro otrosCostos
      = (montoCredito - comisionApertura - otrosCostos)
          :: List.replicate plazoMeses.toNat
              (-(pagoMensual montoCredito plazoMeses tasaInteresAnual
                  + comisionesMensuales + seguro)) := by
  simp [flujosCAT, agregarPagos_eq]

/-- C4. For a positive integer term `n` the sequence that `CalcularCAT` hands
to `CalcularTIR` has `n + 1` elements, the first is `P - f_open - c_other` and
each of those of index `1..n` is `-(payment + f_month + ins)` with
`payment = P * r * (1+r)^n / ((1+r)^n - 1)` and `r = r_annual / 12`. -/
theorem flujosCAT_spec (P : K) (n : ℤ) (r_annual f_open f_month ins c_other : K)
    (hn : 0 < n) :
    ((flujosCAT P n r_annual f_open f_month ins c_other).length : ℤ) = n + 1
      ∧ (flujosCAT P n r_annual f_open f_month ins c_other)[0]? = some (P - f_open - c_other)
      ∧ ∀ i : ℕ, 1 ≤ i → (i : ℤ) ≤ n →
          (flujosCAT P n r_annual f_open f_month ins c_other)[i]?
            = some (-(P * (r_annual / 12) * (1 + r_annual / 12) ^ n
                        / ((1 + r_annual / 12) ^ n - 1) + f_month + ins)) := by
  rw [flujosCAT_eq]
  refine ⟨?_, by simp, ?_⟩
  · rw [List.length_cons, List.length_replicate]
    push_cast
    rw [Int.toNat_of_nonneg hn.le]
  · intro i hi hin
    obtain ⟨j, rfl⟩ : ∃ j, i = j + 1 := ⟨i - 1, by omega⟩
    rw [List.getElem?_cons_succ, List.getElem?_replicate, if_pos (by omega)]
    simp only [pagoMensual, mul_assoc]

/-- Witness of C4: the loan of the example of the program, `50000` over `24`
months at `24 %` a year. -/
theorem flujosCAT_spec_witness :
    (0 : ℤ) < 24
      ∧ ((flujosCAT (50000 : ℚ) 24 (24 / 100) 1000 50 100 500).length : ℤ) = 24 + 1 :=
  ⟨by decide, (flujosCAT_spec (50000 : ℚ) 24 (24 / 100) 1000 50 100 500 (by decide)).1⟩

/-- C5. `CalcularCAT` returns `CalcularTIR(flujos) * 12 * 100` for the
sequence `flujos` built from its arguments. -/
theorem CalcularCAT_eq (montoCredito : K) (plazoMeses : ℤ)
    (tasaInteresAnual comisionApertura comisionesMensuales seguro otrosCostos : K) :
    CalcularCAT montoCredito plazoMeses tasaInteresAnual comisionApertura comisionesMensuales
        seguro otrosCostos
      = CalcularTIR (flujosCAT montoCredito plazoMeses tasaInteresAnual comisionApertura
          comisionesMensuales seguro otrosCostos) * 12 * 100 :=
  rfl

/-! ## One iteration of the solver -/

theorem CalcularTIR.loop_porValor (flujos : List K) (restantes : ℕ) (tasa : K)
    (hA : criterioA flujos tasa) : CalcularTIR.loop flujos (restantes + 1) tasa = tasa := by
  unfold criterioA at hA
  simp only [CalcularTIR.loop, hA, if_true]

theorem CalcularTIR.loop_porPaso (flujos : List K) (restantes : ℕ) (tasa : K)
    (hA : ¬criterioA flujos tasa) (hB : criterioB flujos tasa) :
    CalcularTIR.loop flujos (restantes + 1) tasa = newtonStep flujos tasa := by
  unfold criterioA at hA
  unfold criterioB newtonStep at hB
  simp only [CalcularTIR.loop, hA, hB, if_true, if_false, newtonStep]

theorem CalcularTIR.loop_sigue (flujos : List K) (restantes : ℕ) (tasa : K)
    (hA : ¬criterioA flujos tasa) (hB : ¬criterioB flujos tasa) :
    CalcularTIR.loop flujos (restantes + 1) tasa
      = CalcularTIR.loop flujos restantes (newtonStep flujos tasa) := by
  unfold criterioA at hA
  unfold criterioB newtonStep at hB
  simp only [CalcularTIR.loop, hA, hB, if_false, newtonStep]

theorem CalcularTIR.traza_porValor (flujos : List K) (restantes : ℕ) (tasa : K) (hechas : ℕ)
    (hA : criterioA flujos tasa) :
    CalcularTIR.traza flujos (restantes + 1) tasa hechas
      = ⟨tasa, hechas, Terminacion.porValor⟩ := by
  unfold criterioA at hA
  simp only [CalcularTIR.traza, hA, if_true]

theorem CalcularTIR.traza_porPaso (flujos : List K) (restantes : ℕ) (tasa : K) (hechas : ℕ)
    (hA : ¬criterioA flujos tasa) (hB : criterioB flujos tasa) :
    CalcularTIR.traza flujos (restantes + 1) tasa hechas
      = ⟨newtonStep flujos tasa, hechas + 1, Terminacion.porPaso⟩ := by
  unfold criterioA at hA
  unfold criterioB newtonStep at hB
  simp only [CalcularTIR.traza, hA, hB, if_true, if_false, newtonStep]

theorem CalcularTIR.traza_sigue (flujos : List K) (restantes : ℕ) (tasa : K) (hechas : ℕ)
    (hA : ¬criterioA flujos tasa) (hB : ¬criterioB flujos tasa) :
    CalcularTIR.traza flujos (restantes + 1) tasa hechas
      = CalcularTIR.traza flujos restantes (newtonStep flujos tasa) (hechas + 1) := by
  unfold criterioA at hA
  unfold criterioB newtonStep at hB
  simp only [CalcularTIR.traza, hA, hB, if_false, newtonStep]

/-- The observed loop returns what the loop of the program returns. -/
theorem CalcularTIR.traza_resultado (flujos : List K) (restantes : ℕ) (tasa : K) (hechas : ℕ) :
    (CalcularTIR.traza flujos restantes tasa hechas).resultado
      = CalcularTIR.loop flujos restantes tasa := by
  induction restantes generalizing tasa hechas with
  | zero => rfl
  | succ n ih =>
    by_cases hA : criterioA flujos tasa
    · rw [CalcularTIR.traza_porValor _ _ _ _ hA, CalcularTIR.loop_porValor _ _ _ hA]
    · by_cases hB : criterioB flujos tasa
      · rw [CalcularTIR.traza_porPaso _ _ _ _ hA hB, CalcularTIR.loop_porPaso _ _ _ hA hB]
      · rw [CalcularTIR.traza_sigue _ _ _ _ hA hB, CalcularTIR.loop_sigue _ _ _ hA hB, ih]

theorem CalcularTIR.corrida_resultado (flujos : List K) :
    (CalcularTIR.corrida flujos).resultado = CalcularTIR flujos :=
  CalcularTIR.traza_resultado flujos maxIteraciones tasaInicial 0

theorem CalcularTIR.traza_actualizaciones_le (flujos : List K) (restantes : ℕ) (tasa : K)
    (hechas : ℕ) :
    (CalcularTIR.traza flujos restantes tasa hechas).actualizaciones ≤ hechas + restantes := by
  induction restantes generalizing tasa hechas with
  | zero => exact le_rfl
  | succ n ih =>
    by_cases hA : criterioA flujos tasa
    · rw [CalcularTIR.traza_porValor _ _ _ _ hA]
      exact Nat.le_add_right _ _
    · by_cases hB : criterioB flujos tasa
      · rw [CalcularTIR.traza_porPaso _ _ _ _ hA hB]
        show hechas + 1 ≤ hechas + (n + 1)
        omega
      · rw [CalcularTIR.traza_sigue _ _ _ _ hA hB]
        have := ih (newtonStep flujos tasa) (hechas + 1)
        omega

/-! ## Several iterations of the solver -/

theorem iterado_eq_iterate (flujos : List K) (k : ℕ) :
    iterado flujos k = (newtonStep flujos)^[k] tasaInicial := by
  induction k with
  | zero => rfl
  | succ k ih => rw [iterado, ih, Function.iterate_succ_apply']

/-- While neither criterion holds the loop goes on from the next iterate. -/
theorem CalcularTIR.loop_avanza (flujos : List K) (k restantes : ℕ) (tasa : K)
    (h : ∀ j < k, ¬criterioA flujos ((newtonStep flujos)^[j] tasa)
          ∧ ¬criterioB flujos ((newtonStep flujos)^[j] tasa)) :
    CalcularTIR.loop flujos (k + restantes) tasa
      = CalcularTIR.loop flujos restantes ((newtonStep flujos)^[k] tasa) := by
  induction k generalizing tasa with
  | zero => simp
  | succ k ih =>
    have h0 : ¬criterioA flujos tasa ∧ ¬criterioB flujos tasa := h 0 (Nat.succ_pos k)
    rw [show k + 1 + restantes = (k + restantes) + 1 by omega,
      CalcularTIR.loop_sigue _ _ _ h0.1 h0.2, ih, Function.iterate_succ_apply]
    intro j hj
    have := h (j + 1) (Nat.succ_lt_succ hj)
    rwa [Function.iterate_succ_apply] at this

theorem CalcularTIR.traza_avanza (flujos : List K) (k restantes : ℕ) (tasa : K) (hechas : ℕ)
    (h : ∀ j < k, ¬criterioA flujos ((newtonStep flujos)^[j] tasa)
          ∧ ¬criterioB flujos ((newtonStep flujos)^[j] tasa)) :
    CalcularTIR.traza flujos (k + restantes) tasa hechas
      = CalcularTIR.traza flujos restantes ((newtonStep flujos)^[k] tasa) (hechas + k) := by
  induction k generalizing tasa hechas with
  | zero => simp
  | succ k ih =>
    have h0 : ¬criterioA flujos tasa ∧ ¬criterioB flujos tasa := h 0 (Nat.succ_pos k)
    rw [show k + 1 + restantes = (k + restantes) + 1 by omega,
      CalcularTIR.traza_sigue _ _ _ _ h0.1 h0.2, ih, Function.iterate_succ_apply,
      show hechas + 1 + k = hechas + (k + 1) by omega]
    intro j hj
    have := h (j + 1) (Nat.succ_lt_succ hj)
    rwa [Function.iterate_succ_apply] at this

theorem CalcularTIR.loop_iterado (flujos : List K) (k restantes : ℕ)
    (h : ∀ j < k, ¬criterioA flujos (iterado flujos j) ∧ ¬criterioB flujos (iterado flujos j)) :
    CalcularTIR.loop flujos (k + restantes) tasaInicial
      = CalcularTIR.loop flujos restantes (iterado flujos k) := by
  rw [iterado_eq_iterate]
  apply CalcularTIR.loop_avanza
  intro j hj
  rw [← iterado_eq_iterate]
  exact h j hj

theorem CalcularTIR.traza_iterado (flujos : List K) (k restantes : ℕ)
    (h : ∀ j < k, ¬criterioA flujos (iterado flujos j) ∧ ¬criterioB flujos (iterado flujos j)) :
    CalcularTIR.traza flujos (k + restantes) tasaInicial 0
      = CalcularTIR.traza flujos restantes (iterado flujos k) k := by
  rw [iterado_eq_iterate, CalcularTIR.traza_avanza flujos k restantes tasaInicial 0, zero_add]
  intro j hj
  rw [← iterado_eq_iterate]
  exact h j hj

/-! ## Series of two flows, evaluated -/

theorem CalcularVPN_dos (a b tasa : K) : CalcularVPN [a, b] tasa = a + b / (1 + tasa) := by
  simp [CalcularVPN, CalcularVPN.loop]

theorem CalcularDerivadaVPN_dos (a b tasa : K) :
    CalcularDerivadaVPN [a, b] tasa = -(b / (1 + tasa) ^ 2) := by
  simp [CalcularDerivadaVPN, CalcularDerivadaVPN.loop]

theorem newtonStep_dos (a b tasa : K) :
    newtonStep [a, b] tasa = tasa + (a + b / (1 + tasa)) / (b / (1 + tasa) ^ 2) := by
  rw [newtonStep, CalcularVPN_dos, CalcularDerivadaVPN_dos, div_neg, sub_neg_eq_add]

/-! ## A run that exhausts the iterations -/

theorem tolerancia_pos : (0 : K) < tolerancia := by
  norm_num [tolerancia]

theorem tolerancia_lt_one : (tolerancia : K) < 1 := by
  norm_num [tolerancia]

theorem tasaInicial_pos : (0 : K) < tasaInicial := by
  norm_num [tasaInicial]

/-- On two negative flows `[a, b]` with `a ≤ -1e-10`, from a rate `tasa ≥ 0`
neither criterion holds and the next iterate is larger. -/
theorem paso_dos_negativos (a b tasa : K) (ha : a ≤ -tolerancia) (hb : b < 0) (ht : 0 ≤ tasa) :
    ¬criterioA [a, b] tasa ∧ ¬criterioB [a, b] tasa ∧ tasa ≤ newtonStep [a, b] tasa := by
  have hx : (1 : K) ≤ 1 + tasa := by linarith
  have hx0 : (0 : K) < 1 + tasa := by linarith
  have htol := tolerancia_pos (K := K)
  have htol1 := tolerancia_lt_one (K := K)
  have ha0 : a < 0 := by linarith
  have hq : b / (1 + tasa) < 0 := div_neg_of_neg_of_pos hb hx0
  have hstep : newtonStep [a, b] tasa - tasa = a / b * (1 + tasa) ^ 2 + (1 + tasa) := by
    have hb0 : b ≠ 0 := hb.ne
    have hx1 : 1 + tasa ≠ 0 := hx0.ne'
    rw [newtonStep_dos]
    field_simp
    ring
  have hab : 0 < a / b * (1 + tasa) ^ 2 := by
    have : 0 < a / b := div_pos_of_neg_of_neg ha0 hb
    positivity
  refine ⟨?_, ?_, ?_⟩
  · unfold criterioA
    rw [CalcularVPN_dos, abs_lt]
    intro h
    linarith [h.1]
  · unfold criterioB
    rw [hstep, abs_lt]
    intro h
    linarith [h.2]
  · linarith

/-- On two negative flows `[a, b]` with `a ≤ -1e-10` no iterate meets a
criterion. -/
theorem iterado_dos_negativos (a b : K) (ha : a ≤ -tolerancia) (hb : b < 0) (k : ℕ) :
    0 ≤ iterado [a, b] k
      ∧ ¬criterioA [a, b] (iterado [a, b] k) ∧ ¬criterioB [a, b] (iterado [a, b] k) := by
  have h0 : 0 ≤ iterado [a, b] k := by
    induction k with
    | zero => exact tasaInicial_pos.le
    | succ k ih => exact ih.trans (paso_dos_negativos a b _ ha hb ih).2.2
  exact ⟨h0, (paso_dos_negativos a b _ ha hb h0).1, (paso_dos_negativos a b _ ha hb h0).2.1⟩

/-- When neither criterion holds at `rho_0..rho_999` the run ends after the
loop, with `rho_1000` and `1000` updates. -/
theorem CalcularTIR.corrida_agotada (flujos : List K)
    (h : ∀ k < 1000, ¬criterioA flujos (iterado flujos k)
          ∧ ¬criterioB flujos (iterado flujos k)) :
    CalcularTIR.corrida flujos = ⟨iterado flujos 1000, 1000, Terminacion.agotado⟩ :=
  CalcularTIR.traza_iterado flujos 1000 0 h

/-- C7. `CalcularTIR` computes at most `1000` Newton updates, and if neither
criterion holds at any of `rho_0..rho_999` it returns `rho_1000`, the last
update computed, after exactly `1000` updates. -/
theorem CalcularTIR_agotado (flujos : List K) :
    (CalcularTIR.corrida flujos).actualizaciones ≤ 1000
      ∧ ((∀ k < 1000, ¬criterioA flujos (iterado flujos k)
            ∧ ¬criterioB flujos (iterado flujos k)) →
          CalcularTIR flujos = iterado flujos 1000
            ∧ (CalcularTIR.corrida flujos).actualizaciones = 1000
            ∧ (CalcularTIR.corrida flujos).terminacion = Terminacion.agotado) := by
  constructor
  · have := CalcularTIR.traza_actualizaciones_le flujos maxIteraciones tasaInicial 0
    simpa [maxIteraciones] using this
  · intro h
    have hc := CalcularTIR.corrida_agotada flujos h
    refine ⟨?_, ?_, ?_⟩
    · rw [← CalcularTIR.corrida_resultado, hc]
    · rw [hc]
    · rw [hc]

/-- Witness of C7: on `[-1, -1]` the loop runs `1000` times and returns
`rho_1000`. -/
theorem CalcularTIR_agotado_witness :
    CalcularTIR [(-1 : ℚ), -1] = iterado [(-1 : ℚ), -1] 1000
      ∧ (CalcularTIR.corrida [(-1 : ℚ), -1]).actualizaciones = 1000
      ∧ (CalcularTIR.corrida [(-1 : ℚ), -1]).terminacion = Terminacion.agotado :=
  (CalcularTIR_agotado [(-1 : ℚ), -1]).2 fun k _ =>
    (iterado_dos_negativos (-1 : ℚ) (-1) (by norm_num [tolerancia]) (by norm_num) k).2

/-! ## The derivative of the net present value -/

/-- Derivative at `tasa` of one term `c / (1 + rho) ^ i` of the net present
value. -/
theorem termino_hasDerivAt (c : ℝ) (i : ℕ) (tasa : ℝ) (h : tasa ≠ -1) :
    HasDerivAt (fun rho : ℝ => c / (1 + rho) ^ i)
      (-((i : ℝ) * c / (1 + tasa) ^ (i + 1))) tasa := by
  have hx : 1 + tasa ≠ 0 := fun h0 => h (by linarith)
  have hlin : HasDerivAt (fun rho : ℝ => 1 + rho) 1 tasa := by
    simpa using (hasDerivAt_id tasa).const_add 1
  have hpow := hlin.pow i
  have hdiv := (hasDerivAt_const tasa c).div hpow (pow_ne_zero i hx)
  refine hdiv.congr_deriv ?_
  cases i with
  | zero => simp
  | succ j =>
    have hj : (1 + tasa) ^ j ≠ 0 := pow_ne_zero j hx
    simp only [Nat.add_sub_cancel, Nat.cast_add, Nat.cast_one]
    field_simp
    ring

/-- C3. Over the reals and at a rate `tasa ≠ -1`, `rho ↦ CalcularVPN(flujos, rho)`
is differentiable and its derivative is `CalcularDerivadaVPN(flujos, tasa)`. -/
theorem CalcularVPN_hasDerivAt (flujos : List ℝ) (tasa : ℝ) (h : tasa ≠ -1) :
    HasDerivAt (fun rho : ℝ => CalcularVPN flujos rho) (CalcularDerivadaVPN flujos tasa) tasa := by
  have hf : (fun rho : ℝ => CalcularVPN flujos rho)
      = fun rho : ℝ => ∑ i in Finset.range flujos.length, flujos.getD i 0 / (1 + rho) ^ i := by
    funext rho
    exact (CalcularVPN_eq_sum flujos rho).1
  rw [hf, CalcularDerivadaVPN_eq_sum_range]
  exact HasDerivAt.sum fun i _ => termino_hasDerivAt (flujos.getD i 0) i tasa h

/-- Witness of C3: the series `[100, -120]` at the rate `0.2`. -/
theorem CalcularVPN_hasDerivAt_witness :
    (0.2 : ℝ) ≠ -1
      ∧ HasDerivAt (fun rho : ℝ => CalcularVPN [(100 : ℝ), -120] rho)
          (CalcularDerivadaVPN [(100 : ℝ), -120] 0.2) 0.2 :=
  ⟨by norm_num, CalcularVPN_hasDerivAt [(100 : ℝ), -120] 0.2 (by norm_num)⟩

/-! ## The three ways in which a run ends -/

/-- A run of the loop from `tasa` with `n` iterations allowed stops at the
first iterate `k` that meets a criterion, or after the `n` iterations. -/
theorem CalcularTIR.traza_casos (flujos : List K) (n : ℕ) (tasa : K) (hechas : ℕ) :
    ∃ k ≤ n,
      (∀ j < k, ¬criterioA flujos ((newtonStep flujos)^[j] tasa)
          ∧ ¬criterioB flujos ((newtonStep flujos)^[j] tasa))
      ∧ ((k < n ∧ criterioA flujos ((newtonStep flujos)^[k] tasa)
            ∧ CalcularTIR.traza flujos n tasa hechas
                = ⟨(newtonStep flujos)^[k] tasa, hechas + k, Terminacion.porValor⟩)
        ∨ (k < n ∧ ¬criterioA flujos ((newtonStep flujos)^[k] tasa)
            ∧ criterioB flujos ((newtonStep flujos)^[k] tasa)
            ∧ CalcularTIR.traza flujos n tasa hechas
                = ⟨(newtonStep flujos)^[k + 1] tasa, hechas + (k + 1), Terminacion.porPaso⟩)
        ∨ (k = n ∧ CalcularTIR.traza flujos n tasa hechas
                = ⟨(newtonStep flujos)^[n] tasa, hechas + n, Terminacion.agotado⟩)) := by
  induction n generalizing tasa hechas with
  | zero =>
    exact ⟨0, le_rfl, fun j hj => absurd hj (Nat.not_lt_zero j), Or.inr (Or.inr ⟨rfl, rfl⟩)⟩
  | succ n ih =>
    by_cases hA : criterioA flujos tasa
    · exact ⟨0, Nat.zero_le _, fun j hj => absurd hj (Nat.not_lt_zero j),
        Or.inl ⟨Nat.succ_pos n, hA, CalcularTIR.traza_porValor _ _ _ _ hA⟩⟩
    · by_cases hB : criterioB flujos tasa
      · exact ⟨0, Nat.zero_le _, fun j hj => absurd hj (Nat.not_lt_zero j),
          Or.inr (Or.inl ⟨Nat.succ_pos n, hA, hB, CalcularTIR.traza_porPaso _ _ _ _ hA hB⟩)⟩
      · obtain ⟨k, hk, hprev, hcase⟩ := ih (newtonStep flujos tasa) (hechas + 1)
        refine ⟨k + 1, Nat.succ_le_succ hk, ?_, ?_⟩
        · intro j hj
          cases j with
          | zero => exact ⟨hA, hB⟩
          | succ j =>
            rw [Function.iterate_succ_apply]
            exact hprev j (Nat.lt_of_succ_lt_succ hj)
        · rw [CalcularTIR.traza_sigue _ _ _ _ hA hB]
          simp only [Function.iterate_succ_apply]
          rcases hcase with ⟨h1, h2, h3⟩ | ⟨h1, h2, h3, h4⟩ | ⟨h1, h2⟩
          · refine Or.inl ⟨Nat.succ_lt_succ h1, h2, ?_⟩
            rw [h3, show hechas + 1 + k = hechas + (k + 1) by omega]
          · refine Or.inr (Or.inl ⟨Nat.succ_lt_succ h1, h2, h3, ?_⟩)
            rw [h4, Function.iterate_succ_apply,
              show hechas + 1 + (k + 1) = hechas + (k + 1 + 1) by omega]
          · refine Or.inr (Or.inr ⟨congrArg Nat.succ h1, ?_⟩)
            rw [h2, show hechas + 1 + n = hechas + (n + 1) by omega]

/-- The run of `CalcularTIR` stops at the first Newton iterate `rho_k` that
meets a criterion, or after `1000` iterations. -/
theorem CalcularTIR.corrida_casos (flujos : List K) :
    ∃ k ≤ 1000,
      (∀ j < k, ¬criterioA flujos (iterado flujos j) ∧ ¬criterioB flujos (iterado flujos j))
      ∧ ((k < 1000 ∧ criterioA flujos (iterado flujos k)
            ∧ CalcularTIR.corrida flujos = ⟨iterado flujos k, k, Terminacion.porValor⟩)
        ∨ (k < 1000 ∧ ¬criterioA flujos (iterado flujos k) ∧ criterioB flujos (iterado flujos k)
            ∧ CalcularTIR.corrida flujos = ⟨iterado flujos (k + 1), k + 1, Terminacion.porPaso⟩)
        ∨ (k = 1000
            ∧ CalcularTIR.corrida flujos = ⟨iterado flujos 1000, 1000, Terminacion.agotado⟩)) := by
  have h := CalcularTIR.traza_casos flujos maxIteraciones tasaInicial 0
  simp only [← iterado_eq_iterate, zero_add] at h
  exact h

/-! ## Postcondition of the solver -/

/-- Counterexample to C6: on `[-2, -3]` no iterate `rho_k` with `k < 1000`
meets criterion A or criterion B, so the value returned is neither that of
case (A) nor that of case (B); it is `rho_1000`. -/
theorem CalcularTIR_postcondicion_falla :
    (¬∃ k < maxIteraciones, criterioA [(-2 : ℚ), -3] (iterado [(-2 : ℚ), -3] k)
        ∨ criterioB [(-2 : ℚ), -3] (iterado [(-2 : ℚ), -3] k))
      ∧ CalcularTIR [(-2 : ℚ), -3] = iterado [(-2 : ℚ), -3] 1000 := by
  have h : ∀ k, ¬criterioA [(-2 : ℚ), -3] (iterado [(-2 : ℚ), -3] k)
      ∧ ¬criterioB [(-2 : ℚ), -3] (iterado [(-2 : ℚ), -3] k) := fun k =>
    (iterado_dos_negativos (-2 : ℚ) (-3) (by norm_num [tolerancia]) (by norm_num) k).2
  constructor
  · rintro ⟨k, -, hk⟩
    exact not_or.mpr (h k) hk
  · rw [← CalcularTIR.corrida_resultado, CalcularTIR.corrida_agotada _ fun k _ => h k]

/-- C6, amended. With `rho_0 = 0.1` and
`rho_(k+1) = rho_k - VPN(rho_k) / VPN'(rho_k)`, the value that `CalcularTIR`
returns is exactly one of: (A) `rho_k` for the least `k < 1000` with
`|VPN(rho_k)| < 1e-10`, when no earlier step met criterion B; (B) `rho_(k+1)`
for the least `k < 1000` with `|rho_(k+1) - rho_k| < 1e-10`, when criterion A
failed at `rho_0..rho_k`; (C) `rho_1000`, when neither criterion holds at any
of `rho_0..rho_999`. The three cases exclude each other and one of them always
applies; in particular if `|VPN(0.1)| < 1e-10` the result is `0.1`. -/
theorem CalcularTIR_postcondicion (flujos : List K) :
    (∀ k < maxIteraciones,
        (∀ j < k, ¬criterioA flujos (iterado flujos j) ∧ ¬criterioB flujos (iterado flujos j)) →
        criterioA flujos (iterado flujos k) →
        CalcularTIR flujos = iterado flujos k)
      ∧ (∀ k < maxIteraciones,
        (∀ j < k, ¬criterioA flujos (iterado flujos j) ∧ ¬criterioB flujos (iterado flujos j)) →
        ¬criterioA flujos (iterado flujos k) → criterioB flujos (iterado flujos k) →
        CalcularTIR flujos = iterado flujos (k + 1))
      ∧ ((∀ j < maxIteraciones,
            ¬criterioA flujos (iterado flujos j) ∧ ¬criterioB flujos (iterado flujos j)) →
        CalcularTIR flujos = iterado flujos maxIteraciones)
      ∧ (∀ k k2 : ℕ,
        (∀ j < k, ¬criterioA flujos (iterado flujos j) ∧ ¬criterioB flujos (iterado flujos j)) →
        criterioA flujos (iterado flujos k) →
        (∀ j < k2, ¬criterioA flujos (iterado flujos j) ∧ ¬criterioB flujos (iterado flujos j)) →
        ¬criterioA flujos (iterado flujos k2) → criterioB flujos (iterado flujos k2) → False)
      ∧ ((∀ j < maxIteraciones,
            ¬criterioA flujos (iterado flujos j) ∧ ¬criterioB flujos (iterado flujos j)) →
        ¬∃ k < maxIteraciones,
          criterioA flujos (iterado flujos k) ∨ criterioB flujos (iterado flujos k))
      ∧ (∃ k ≤ maxIteraciones,
          (∀ j < k, ¬criterioA flujos (iterado flujos j)
              ∧ ¬criterioB flujos (iterado flujos j))
          ∧ ((k < maxIteraciones ∧ criterioA flujos (iterado flujos k)
                ∧ CalcularTIR flujos = iterado flujos k)
            ∨ (k < maxIteraciones ∧ ¬criterioA flujos (iterado flujos k)
                ∧ criterioB flujos (iterado flujos k)
                ∧ CalcularTIR flujos = iterado flujos (k + 1))
            ∨ (k = maxIteraciones ∧ CalcularTIR flujos = iterado flujos maxIteraciones)))
      ∧ (|CalcularVPN flujos (0.1 : K)| < 1e-10 → CalcularTIR flujos = 0.1) := by
  refine ⟨?_, ?_, ?_, ?_, ?_, ?_, ?_⟩
  · intro k hk hprev hA
    obtain ⟨m, hm⟩ : ∃ m, maxIteraciones = k + (m + 1) := ⟨maxIteraciones - k - 1, by omega⟩
    rw [CalcularTIR, hm, CalcularTIR.loop_iterado flujos k (m + 1) hprev,
      CalcularTIR.loop_porValor _ _ _ hA]
  · intro k hk hprev hA hB
    obtain ⟨m, hm⟩ : ∃ m, maxIteraciones = k + (m + 1) := ⟨maxIteraciones - k - 1, by omega⟩
    rw [CalcularTIR, hm, CalcularTIR.loop_iterado flujos k (m + 1) hprev,
      CalcularTIR.loop_porPaso _ _ _ hA hB, iterado]
  · intro h
    rw [← CalcularTIR.corrida_resultado, CalcularTIR.corrida_agotada flujos h]
    rfl
  · intro k k2 hprev hA hprev2 hA2 hB2
    rcases lt_trichotomy k k2 with h | h | h
    · exact (hprev2 k h).1 hA
    · exact hA2 (h ▸ hA)
    · exact (hprev k2 h).2 hB2
  · rintro h ⟨k, hk, hcrit⟩
    exact not_or.mpr (h k hk) hcrit
  · obtain ⟨k, hk, hprev, hcase⟩ := CalcularTIR.corrida_casos flujos
    refine ⟨k, hk, hprev, ?_⟩
    rcases hcase with ⟨h1, hA, hc⟩ | ⟨h1, hA, hB, hc⟩ | ⟨h1, hc⟩
    · exact Or.inl ⟨h1, hA, by rw [← CalcularTIR.corrida_resultado, hc]⟩
    · exact Or.inr (Or.inl ⟨h1, hA, hB, by rw [← CalcularTIR.corrida_resultado, hc]⟩)
    · refine Or.inr (Or.inr ⟨h1, ?_⟩)
      rw [← CalcularTIR.corrida_resultado, hc]
      rfl
  · intro h
    exact CalcularTIR.loop_porValor flujos _ tasaInicial h

/-- Witness of C6, amended: on `[1, -1.100001]` criterion A holds first at
`rho_1`, on `[1100000000000, -1210000000001]` criterion B holds at `rho_0`, on
`[-5, -7]` no criterion holds and `rho_1000` is returned. -/
theorem CalcularTIR_postcondicion_witness :
    CalcularTIR [(1 : ℚ), -(1100001 / 1000000)] = iterado [(1 : ℚ), -(1100001 / 1000000)] 1
      ∧ CalcularTIR [(1100000000000 : ℚ), -1210000000001]
          = iterado [(1100000000000 : ℚ), -1210000000001] 1
      ∧ CalcularTIR [(-5 : ℚ), -7] = iterado [(-5 : ℚ), -7] maxIteraciones := by
  refine ⟨?_, ?_, (CalcularTIR_postcondicion [(-5 : ℚ), -7]).2.2.1 fun k _ =>
    (iterado_dos_negativos (-5 : ℚ) (-7) (by norm_num [tolerancia]) (by norm_num) k).2⟩
  · refine (CalcularTIR_postcondicion [(1 : ℚ), -(1100001 / 1000000)]).1 1 (by decide) ?_ ?_
    · intro j hj
      obtain rfl : j = 0 := by omega
      constructor
      · norm_num [criterioA, iterado, tasaInicial, tolerancia, CalcularVPN_dos, abs_lt]
      · norm_num [criterioB, iterado, tasaInicial, tolerancia, newtonStep_dos, abs_lt]
    · norm_num [criterioA, iterado, tasaInicial, tolerancia, CalcularVPN_dos, newtonStep_dos,
        abs_lt]
  · refine (CalcularTIR_postcondicion [(1100000000000 : ℚ), -1210000000001]).2.1 0
      (by decide) ?_ ?_ ?_
    · intro j hj
      omega
    · norm_num [criterioA, iterado, tasaInicial, tolerancia, CalcularVPN_dos, abs_lt]
    · norm_num [criterioB, iterado, tasaInicial, tolerancia, newtonStep_dos, abs_lt]

/-! ## Termination of the solver on the sequence built by `CalcularCAT` -/

theorem flujosCAT_ejemplo_comision :
    flujosCAT (1000 : ℚ) 1 (12 / 100) 2000 0 0 0 = [-1000, -1010] := by
  norm_num [flujosCAT_eq, pagoMensual]

/-! ## Scaling the flows -/

theorem CalcularVPN_escala (k : K) (flujos : List K) (tasa : K) :
    CalcularVPN (flujos.map fun x => k * x) tasa = k * CalcularVPN flujos tasa := by
  rw [(CalcularVPN_eq_sum _ _).1, (CalcularVPN_eq_sum _ _).1, List.length_map, Finset.mul_sum]
  refine Finset.sum_congr rfl fun i hi => ?_
  have hi2 : i < flujos.length := Finset.mem_range.mp hi
  simp [List.getD_eq_getElem?_getD, hi2, mul_div_assoc]

theorem CalcularDerivadaVPN_escala (k : K) (flujos : List K) (tasa : K) :
    CalcularDerivadaVPN (flujos.map fun x => k * x) tasa
      = k * CalcularDerivadaVPN flujos tasa := by
  rw [CalcularDerivadaVPN_eq_sum_range, CalcularDerivadaVPN_eq_sum_range, List.length_map,
    Finset.mul_sum]
  refine Finset.sum_congr rfl fun i hi => ?_
  have hi2 : i < flujos.length := Finset.mem_range.mp hi
  simp only [List.getD_eq_getElem?_getD, List.getElem?_map, List.getElem?_eq_getElem hi2,
    Option.map_some', Option.getD_some]
  ring

theorem newtonStep_escala (k : K) (hk : k ≠ 0) (flujos : List K) (tasa : K) :
    newtonStep (flujos.map fun x => k * x) tasa = newtonStep flujos tasa := by
  rw [newtonStep, newtonStep, CalcularVPN_escala, CalcularDerivadaVPN_escala,
    mul_div_mul_left _ _ hk]

theorem criterioB_escala (k : K) (hk : k ≠ 0) (flujos : List K) (tasa : K) :
    criterioB (flujos.map fun x => k * x) tasa ↔ criterioB flujos tasa := by
  rw [criterioB, criterioB, newtonStep_escala k hk]

/-- The loop returns the same value on `k * flujos` as on `flujos` when
criterion A gives the same verdict on both at every iterate that the run on
`flujos` reaches. -/
theorem CalcularTIR.loop_escala (k : K) (hk : k ≠ 0) (flujos : List K) (n : ℕ) (tasa : K)
    (h : ∀ j < n,
        (∀ i < j, ¬criterioA flujos ((newtonStep flujos)^[i] tasa)
            ∧ ¬criterioB flujos ((newtonStep flujos)^[i] tasa)) →
        (criterioA (flujos.map fun x => k * x) ((newtonStep flujos)^[j] tasa)
          ↔ criterioA flujos ((newtonStep flujos)^[j] tasa))) :
    CalcularTIR.loop (flujos.map fun x => k * x) n tasa = CalcularTIR.loop flujos n tasa := by
  induction n generalizing tasa with
  | zero => rfl
  | succ n ih =>
    have h0 : criterioA (flujos.map fun x => k * x) tasa ↔ criterioA flujos tasa :=
      h 0 (Nat.succ_pos n) fun i hi => absurd hi (Nat.not_lt_zero i)
    by_cases hA : criterioA flujos tasa
    · rw [CalcularTIR.loop_porValor _ _ _ hA, CalcularTIR.loop_porValor _ _ _ (h0.mpr hA)]
    · have hA2 : ¬criterioA (flujos.map fun x => k * x) tasa := fun hc => hA (h0.mp hc)
      by_cases hB : criterioB flujos tasa
      · rw [CalcularTIR.loop_porPaso _ _ _ hA hB,
          CalcularTIR.loop_porPaso _ _ _ hA2 ((criterioB_escala k hk flujos tasa).mpr hB),
          newtonStep_escala k hk]
      · have hB2 : ¬criterioB (flujos.map fun x => k * x) tasa :=
          fun hc => hB ((criterioB_escala k hk flujos tasa).mp hc)
        rw [CalcularTIR.loop_sigue _ _ _ hA hB, CalcularTIR.loop_sigue _ _ _ hA2 hB2,
          newtonStep_escala k hk]
        apply ih
        intro j hj hprev
        have := h (j + 1) (Nat.succ_lt_succ hj) (by
          intro i hi
          cases i with
          | zero => exact ⟨hA, hB⟩
          | succ i =>
            rw [Function.iterate_succ_apply]
            exact hprev i (Nat.lt_of_succ_lt_succ hi))
        rwa [Function.iterate_succ_apply] at this

theorem CalcularTIR_ejemplo_un_paso :
    CalcularTIR [(1 : ℚ), -(1100001 / 1000000)]
      = iterado [(1 : ℚ), -(1100001 / 1000000)] 1 := by
  have h0 : ∀ j < 1, ¬criterioA [(1 : ℚ), -(1100001 / 1000000)]
        (iterado [(1 : ℚ), -(1100001 / 1000000)] j)
      ∧ ¬criterioB [(1 : ℚ), -(1100001 / 1000000)]
        (iterado [(1 : ℚ), -(1100001 / 1000000)] j) := by
    intro j hj
    obtain rfl : j = 0 := by omega
    constructor
    · norm_num [criterioA, iterado, tasaInicial, tolerancia, CalcularVPN_dos, abs_lt]
    · norm_num [criterioB, iterado, tasaInicial, tolerancia, newtonStep_dos, abs_lt]
  rw [CalcularTIR, show maxIteraciones = 1 + (998 + 1) from rfl,
    CalcularTIR.loop_iterado _ 1 _ h0, CalcularTIR.loop_porValor]
  norm_num [criterioA, iterado, tasaInicial, tolerancia, CalcularVPN_dos, newtonStep_dos, abs_lt]

/-- Counterexample to C9: the series `[1, -1.100001]` and `k = 0.00001`. On
the scaled series criterion A holds at the seed and `0.1` is returned; on the
series itself the first iteration meets no criterion and `rho_1 ≠ 0.1` is
returned. -/
theorem CalcularTIR_escala_falla :
    (0 : ℚ) < 1 / 100000
      ∧ CalcularTIR ([(1 : ℚ), -(1100001 / 1000000)].map fun x => 1 / 100000 * x)
          ≠ CalcularTIR [(1 : ℚ), -(1100001 / 1000000)] := by
  refine ⟨by norm_num, ?_⟩
  have h1 : CalcularTIR ([(1 : ℚ), -(1100001 / 1000000)].map fun x => 1 / 100000 * x)
      = 1 / 10 := by
    rw [CalcularTIR, show maxIteraciones = 999 + 1 from rfl, CalcularTIR.loop_porValor]
    · norm_num [tasaInicial]
    · norm_num [criterioA, tasaInicial, tolerancia, CalcularVPN_dos, abs_lt]
  rw [h1, CalcularTIR_ejemplo_un_paso]
  norm_num [iterado, tasaInicial, newtonStep_dos]

/-- C9, amended. For a positive constant `k`, `CalcularTIR` returns the same
rate on `k * flujos` as on `flujos` provided criterion A, the test
`|VPN| < 1e-10`, gives the same verdict on both series at every Newton iterate
that the run on `flujos` reaches. -/
theorem CalcularTIR_escala (flujos : List K) (k : K) (hk : 0 < k)
    (h : ∀ j < 1000,
        (∀ i < j, ¬criterioA flujos (iterado flujos i) ∧ ¬criterioB flujos (iterado flujos i)) →
        (criterioA (flujos.map fun x => k * x) (iterado flujos j)
          ↔ criterioA flujos (iterado flujos j))) :
    CalcularTIR (flujos.map fun x => k * x) = CalcularTIR flujos := by
  apply CalcularTIR.loop_escala k hk.ne'
  intro j hj hprev
  simp only [← iterado_eq_iterate] at hprev ⊢
  exact h j hj hprev

/-- Witness of C9, amended: the series `[1, -1.100001]` and `k = 2`; on both
series criterion A fails at `rho_0` and holds at `rho_1`. -/
theorem CalcularTIR_escala_witness :
    (0 : ℚ) < 2
      ∧ CalcularTIR ([(1 : ℚ), -(1100001 / 1000000)].map fun x => 2 * x)
          = CalcularTIR [(1 : ℚ), -(1100001 / 1000000)] := by
  refine ⟨by norm_num, CalcularTIR_escala [(1 : ℚ), -(1100001 / 1000000)] 2 (by norm_num) ?_⟩
  intro j hj hprev
  match j, hprev with
  | 0, _ =>
    norm_num [criterioA, iterado, tasaInicial, tolerancia, CalcularVPN_dos, abs_lt]
  | 1, _ =>
    norm_num [criterioA, iterado, tasaInicial, tolerancia, CalcularVPN_dos, newtonStep_dos,
      abs_lt]
  | j + 2, hprev =>
    exfalso
    refine (hprev 1 (by omega)).1 ?_
    norm_num [criterioA, iterado, tasaInicial, tolerancia, CalcularVPN_dos, newtonStep_dos,
      abs_lt]

/-! ## The net present value of the built sequence -/

theorem CalcularVPN_cons_replicate (neto pago tasa : K) (m : ℕ) :
    CalcularVPN (neto :: List.replicate m pago) tasa
      = neto + pago * anualidad (1 + tasa) m := by
  rw [(CalcularVPN_eq_sum _ _).1, List.length_cons, List.length_replicate,
    Finset.sum_range_succ', anualidad, Finset.mul_sum]
  simp only [List.getD_cons_succ, List.getD_cons_zero, pow_zero, div_one]
  rw [add_comm]
  congr 1
  refine Finset.sum_congr rfl fun i hi => ?_
  have hi2 : i < m := Finset.mem_range.mp hi
  simp [List.getD_eq_getElem?_getD, hi2, div_eq_mul_inv]

theorem anualidad_pos (x : K) (m : ℕ) (hx : 0 < x) (hm : 0 < m) : 0 < anualidad x m := by
  apply Finset.sum_pos
  · intro i _
    positivity
  · exact ⟨0, Finset.mem_range.mpr hm⟩

theorem anualidad_lt (x y : K) (m : ℕ) (hx : 0 < x) (hxy : x < y) (hm : 0 < m) :
    anualidad y m < anualidad x m := by
  apply Finset.sum_lt_sum_of_nonempty ⟨0, Finset.mem_range.mpr hm⟩
  intro i _
  exact one_div_lt_one_div_of_lt (pow_pos hx _) (pow_lt_pow_left₀ hxy hx.le (Nat.succ_ne_zero i))

theorem anualidad_cerrada (x : K) (m : ℕ) (hx : 0 < x) :
    anualidad x m * ((x - 1) * x ^ m) = x ^ m - 1 := by
  induction m with
  | zero => simp [anualidad]
  | succ m ih =>
    have hx0 : x ≠ 0 := hx.ne'
    have hs : anualidad x (m + 1) = anualidad x m + 1 / x ^ (m + 1) := by
      rw [anualidad, Finset.sum_range_succ, ← anualidad]
    have h1 : anualidad x m * ((x - 1) * x ^ (m + 1)) = (x ^ m - 1) * x := by
      rw [← ih]
      ring
    have h2 : 1 / x ^ (m + 1) * ((x - 1) * x ^ (m + 1)) = x - 1 := by
      field_simp
    rw [hs, add_mul, h1, h2]
    ring

/-- For a positive rate and a positive integer term the payment is the
principal divided by the sum of the discount factors at the nominal monthly
rate. -/
theorem pagoMensual_mul_anualidad (P : K) (n : ℤ) (r_annual : K) (hn : 0 < n)
    (hr : 0 < r_annual) :
    pagoMensual P n r_annual * anualidad (1 + r_annual / 12) n.toNat = P := by
  obtain ⟨m, rfl⟩ : ∃ m : ℕ, n = (m : ℤ) := ⟨n.toNat, (Int.toNat_of_nonneg hn.le).symm⟩
  have hm : 0 < m := by exact_mod_cast hn
  have ht : 0 < r_annual / 12 := by positivity
  have hx : 0 < 1 + r_annual / 12 := by linarith
  have hx1 : 1 < 1 + r_annual / 12 := by linarith
  have hpow : 1 < (1 + r_annual / 12) ^ m := one_lt_pow₀ hx1 (Nat.pos_iff_ne_zero.mp hm)
  have hden : (1 + r_annual / 12) ^ m - 1 ≠ 0 := by linarith
  have hc := anualidad_cerrada (1 + r_annual / 12) m hx
  rw [add_sub_cancel_left] at hc
  rw [pagoMensual]
  simp only [zpow_natCast, Int.toNat_ofNat]
  rw [div_mul_eq_mul_div, div_eq_iff hden, mul_assoc, mul_comm _ (anualidad _ _), hc]

theorem pagoMensual_lt (P : K) (n : ℤ) (r1 r2 : K) (hP : 0 < P) (hn : 0 < n)
    (hr1 : 0 < r1) (hr12 : r1 < r2) : pagoMensual P n r1 < pagoMensual P n r2 := by
  have hm : 0 < n.toNat := by omega
  have h1 := pagoMensual_mul_anualidad P n r1 hn hr1
  have h2 := pagoMensual_mul_anualidad P n r2 hn (hr1.trans hr12)
  have hx1 : (0 : K) < 1 + r1 / 12 := by positivity
  have hx12 : 1 + r1 / 12 < 1 + r2 / 12 := by linarith
  have ha2 := anualidad_pos (1 + r2 / 12) n.toNat (hx1.trans hx12) hm
  have hlt := anualidad_lt _ _ n.toNat hx1 hx12 hm
  have hp1 : 0 < pagoMensual P n r1 := by
    by_contra hneg
    have : pagoMensual P n r1 * anualidad (1 + r1 / 12) n.toNat ≤ 0 :=
      mul_nonpos_of_nonpos_of_nonneg (not_lt.mp hneg) (ha2.trans hlt).le
    linarith
  by_contra hge
  have hge2 : pagoMensual P n r2 ≤ pagoMensual P n r1 := not_lt.mp hge
  have : pagoMensual P n r2 * anualidad (1 + r2 / 12) n.toNat
      < pagoMensual P n r1 * anualidad (1 + r1 / 12) n.toNat :=
    calc pagoMensual P n r2 * anualidad (1 + r2 / 12) n.toNat
        ≤ pagoMensual P n r1 * anualidad (1 + r2 / 12) n.toNat :=
          mul_le_mul_of_nonneg_right hge2 ha2.le
      _ < pagoMensual P n r1 * anualidad (1 + r1 / 12) n.toNat :=
          mul_lt_mul_of_pos_left hlt hp1
  linarith

/-! ## Monotonicity in the nominal rate -/

theorem flujosCAT_ejemplo_sin_comision :
    flujosCAT (1 : ℚ) 1 (6 / 5) 0 0 0 0 = [1, -(11 / 10)] := by
  norm_num [flujosCAT_eq, pagoMensual]

theorem flujosCAT_ejemplo_tasa_vecina :
    flujosCAT (1 : ℚ) 1 (6 / 5 + 12 / 100000000000) 0 0 0 0
      = [1, -(110000000001 / 100000000000)] := by
  norm_num [flujosCAT_eq, pagoMensual]

/-- Counterexample to C10: principal `1`, term `1`, no fees, and the annual
rates `1.2 < 1.2 + 1.2e-10`. On both sequences criterion A holds at the seed,
so `CalcularCAT` returns `120` for both. -/
theorem CalcularCAT_no_estricta :
    (0 : ℚ) < 1 ∧ (0 : ℤ) < 1 ∧ (0 : ℚ) < 6 / 5 ∧ (6 / 5 : ℚ) < 6 / 5 + 12 / 100000000000
      ∧ ¬(CalcularCAT (1 : ℚ) 1 (6 / 5) 0 0 0 0
            < CalcularCAT (1 : ℚ) 1 (6 / 5 + 12 / 100000000000) 0 0 0 0) := by
  refine ⟨by norm_num, by norm_num, by norm_num, by norm_num, ?_⟩
  have h1 : CalcularCAT (1 : ℚ) 1 (6 / 5) 0 0 0 0 = 120 := by
    rw [CalcularCAT, flujosCAT_ejemplo_sin_comision, CalcularTIR,
      show maxIteraciones = 999 + 1 from rfl, CalcularTIR.loop_porValor]
    · norm_num [tasaInicial]
    · norm_num [criterioA, tasaInicial, tolerancia, CalcularVPN_dos, abs_lt]
  have h2 : CalcularCAT (1 : ℚ) 1 (6 / 5 + 12 / 100000000000) 0 0 0 0 = 120 := by
    rw [CalcularCAT, flujosCAT_ejemplo_tasa_vecina, CalcularTIR,
      show maxIteraciones = 999 + 1 from rfl, CalcularTIR.loop_porValor]
    · norm_num [tasaInicial]
    · norm_num [criterioA, tasaInicial, tolerancia, CalcularVPN_dos, abs_lt]
  rw [h1, h2]
  exact lt_irrefl _

/-! ## No discounting at the rate zero -/

theorem CalcularVPN.loop_tasa_cero (flujos : List K) (i : ℕ) (vpn : K) :
    CalcularVPN.loop 0 flujos i vpn = vpn + flujos.sum := by
  induction flujos generalizing i vpn with
  | nil => simp [CalcularVPN.loop]
  | cons flujo resto ih =>
    rw [CalcularVPN.loop, ih, List.sum_cons, add_zero, one_pow, div_one, add_assoc]

/-- C11. At the rate `0` nothing is discounted: `CalcularVPN(flujos, 0)` is the
plain sum of the elements of `flujos`. -/
theorem CalcularVPN_tasa_cero (flujos : List K) : CalcularVPN flujos 0 = flujos.sum := by
  rw [CalcularVPN, CalcularVPN.loop_tasa_cero, zero_add]

/-! ## Signs of the built sequence -/

theorem pagoMensual_pos (P : K) (n : ℤ) (r_annual : K) (hP : 0 < P) (hn : 0 < n)
    (hr : 0 < r_annual) : 0 < pagoMensual P n r_annual := by
  have hm : 0 < n.toNat := by omega
  have hx : (0 : K) < 1 + r_annual / 12 := by positivity
  have ha := anualidad_pos (1 + r_annual / 12) n.toNat hx hm
  have h := pagoMensual_mul_anualidad P n r_annual hn hr
  by_contra hneg
  have : pagoMensual P n r_annual * anualidad (1 + r_annual / 12) n.toNat ≤ 0 :=
    mul_nonpos_of_nonpos_of_nonneg (not_lt.mp hneg) ha.le
  linarith

/-- C12. For a positive principal, a positive integer term `n`, an annual rate
`r_annual > 0` and a non-negative recurring fee and insurance, every element of
index `1..n` of the sequence built by `CalcularCAT` is `≤ 0`, and the element
of index `0` is `≥ 0` when `comisionApertura + otrosCostos ≤ P`. -/
theorem flujosCAT_signos (P : K) (n : ℤ) (r_annual f_open f_month ins c_other : K)
    (hP : 0 < P) (hn : 0 < n) (hr : 0 < r_annual) (hf : 0 ≤ f_month) (hi : 0 ≤ ins) :
    (∀ i : ℕ, 1 ≤ i → (i : ℤ) ≤ n →
        ∃ v, (flujosCAT P n r_annual f_open f_month ins c_other)[i]? = some v ∧ v ≤ 0)
      ∧ (f_open + c_other ≤ P →
        ∃ v, (flujosCAT P n r_annual f_open f_month ins c_other)[0]? = some v ∧ 0 ≤ v) := by
  rw [flujosCAT_eq]
  have hp := pagoMensual_pos P n r_annual hP hn hr
  constructor
  · intro i h1 hin
    obtain ⟨j, rfl⟩ : ∃ j, i = j + 1 := ⟨i - 1, by omega⟩
    refine ⟨-(pagoMensual P n r_annual + f_month + ins), ?_, by linarith⟩
    rw [List.getElem?_cons_succ, List.getElem?_replicate, if_pos (by omega)]
  · intro h
    exact ⟨P - f_open - c_other, by simp, by linarith⟩

/-- Witness of C12: the loan of the example of the program; its second element
is `≤ 0`. -/
theorem flujosCAT_signos_witness :
    ∃ v, (flujosCAT (50000 : ℚ) 24 (24 / 100) 1000 50 100 500)[1]? = some v ∧ v ≤ 0 :=
  (flujosCAT_signos (50000 : ℚ) 24 (24 / 100) 1000 50 100 500 (by norm_num) (by norm_num)
    (by norm_num) (by norm_num) (by norm_num)).1 1 le_rfl (by norm_num)

/-! ## The divisor of the payment formula -/

theorem pagoMensual_eq_div (P : K) (n : ℤ) (r_annual : K) :
    pagoMensual P n r_annual
      = P * (r_annual / 12 * (1 + r_annual / 12) ^ n) / denominadorPago n r_annual :=
  rfl

theorem denominadorPago_pos (n : ℤ) (r_annual : K) (hn : 0 < n) (hr : 0 < r_annual) :
    0 < denominadorPago n r_annual := by
  obtain ⟨m, rfl⟩ : ∃ m : ℕ, n = (m : ℤ) := ⟨n.toNat, (Int.toNat_of_nonneg hn.le).symm⟩
  have hm : m ≠ 0 := by
    rintro rfl
    exact lt_irrefl _ hn
  have hx1 : 1 < 1 + r_annual / 12 := by
    have : 0 < r_annual / 12 := by positivity
    linarith
  have hpow : 1 < (1 + r_annual / 12) ^ m := one_lt_pow₀ hx1 hm
  rw [denominadorPago, zpow_natCast]
  linarith

/-- C13. For a positive integer term `n` and an annual rate `r_annual > 0` the
divisor `(1 + r_annual/12)^n - 1` of the payment formula is `> 0`; for
`r_annual = 0` it is `0` for every `n`; and `CalcularCAT` divides by it for
every rate, without a separate case for the rate `0`. -/
theorem denominadorPago_spec (n : ℤ) (r_annual : K) :
    (0 < n → 0 < r_annual → 0 < (1 + r_annual / 12) ^ n - 1)
      ∧ (1 + (0 : K) / 12) ^ n - 1 = 0
      ∧ denominadorPago n (0 : K) = 0
      ∧ ∀ P : K, pagoMensual P n r_annual
          = P * (r_annual / 12 * (1 + r_annual / 12) ^ n) / denominadorPago n r_annual := by
  refine ⟨fun hn hr => denominadorPago_pos n r_annual hn hr, ?_, ?_, fun P => rfl⟩
  · simp
  · simp [denominadorPago]

/-! ## A single payment -/

/-- C14. On a series `[net, -c]` of one payment with `c ≠ 0`, at a rate
`tasa ≠ -1`, `CalcularDerivadaVPN` is `c / (1+tasa)^2`; its divisor
`(1+tasa)^2` is not `0` and its value, the divisor of the Newton update, is
not `0`. -/
theorem CalcularDerivadaVPN_un_pago (net c tasa : K) (hc : c ≠ 0) (ht : tasa ≠ -1) :
    CalcularDerivadaVPN [net, -c] tasa = c / (1 + tasa) ^ 2
      ∧ (1 + tasa) ^ (1 + 1) ≠ 0
      ∧ CalcularDerivadaVPN [net, -c] tasa ≠ 0 := by
  have hx : 1 + tasa ≠ 0 := fun h => ht (by linarith)
  have hx2 : (1 + tasa) ^ 2 ≠ 0 := pow_ne_zero 2 hx
  have hd : CalcularDerivadaVPN [net, -c] tasa = c / (1 + tasa) ^ 2 := by
    rw [CalcularDerivadaVPN_dos, neg_div, neg_neg]
  exact ⟨hd, hx2, by rw [hd]; exact div_ne_zero hc hx2⟩

/-- Witness of C14: the series `[100, -120]` at the rate `0.1`. -/
theorem CalcularDerivadaVPN_un_pago_witness :
    CalcularDerivadaVPN [(100 : ℚ), -120] (1 / 10) = 120 / (1 + 1 / 10) ^ 2
      ∧ CalcularDerivadaVPN [(100 : ℚ), -120] (1 / 10) ≠ 0 :=
  ⟨(CalcularDerivadaVPN_un_pago (100 : ℚ) 120 (1 / 10) (by norm_num) (by norm_num)).1,
    (CalcularDerivadaVPN_un_pago (100 : ℚ) 120 (1 / 10) (by norm_num) (by norm_num)).2.2⟩

/-! ## The net present value at the nominal monthly rate -/

theorem anualidad_eq_sum_Ico (x : K) (m : ℕ) :
    anualidad x m = ∑ i in Finset.Ico 1 (m + 1), 1 / x ^ i := by
  rw [anualidad, Finset.sum_Ico_eq_sum_range, Nat.add_sub_cancel]
  exact Finset.sum_congr rfl fun i _ => by rw [add_comm]

/-- C16. For a positive integer term `n` and an annual rate `r_annual > 0`, at
the nominal monthly rate `r = r_annual / 12` the net present value of the
sequence built by `CalcularCAT` is
`-(comisionApertura + otrosCostos) - (comisionesMensuales + seguro) * Σ_(i=1..n) 1/(1+r)^i`;
with the four fees `0` it is `0`, so that `r` is an exact internal rate of
return and the exact cost `r * 12 * 100` is `r_annual * 100`. -/
theorem CalcularVPN_tasa_nominal (P : K) (n : ℤ) (r_annual f_open f_month ins c_other : K)
    (hn : 0 < n) (hr : 0 < r_annual) :
    CalcularVPN (flujosCAT P n r_annual f_open f_month ins c_other) (r_annual / 12)
        = -(f_open + c_other)
          - (f_month + ins) * ∑ i in Finset.Ico 1 (n.toNat + 1), 1 / (1 + r_annual / 12) ^ i
      ∧ CalcularVPN (flujosCAT P n r_annual 0 0 0 0) (r_annual / 12) = 0
      ∧ r_annual / 12 * 12 * 100 = r_annual * 100 := by
  have key : ∀ fo fm s co : K,
      CalcularVPN (flujosCAT P n r_annual fo fm s co) (r_annual / 12)
        = -(fo + co) - (fm + s) * anualidad (1 + r_annual / 12) n.toNat := by
    intro fo fm s co
    have h := pagoMensual_mul_anualidad P n r_annual hn hr
    rw [flujosCAT_eq, CalcularVPN_cons_replicate]
    linear_combination -h
  refine ⟨?_, ?_, by ring⟩
  · rw [key, anualidad_eq_sum_Ico]
  · rw [key]
    ring

/-- Witness of C16: principal `1000`, term `2`, annual rate `12 %`, fees
`10`, `1`, `2` and `5`. -/
theorem CalcularVPN_tasa_nominal_witness :
    CalcularVPN (flujosCAT (1000 : ℚ) 2 (12 / 100) 10 1 2 5) (12 / 100 / 12)
      = -(10 + 5) - (1 + 2) * ∑ i in Finset.Ico 1 ((2 : ℤ).toNat + 1),
          1 / (1 + (12 / 100 : ℚ) / 12) ^ i :=
  (CalcularVPN_tasa_nominal (1000 : ℚ) 2 (12 / 100) 10 1 2 5 (by norm_num) (by norm_num)).1

/-! ## Loan-shaped series -/

theorem termino_le_of_nonpos (f x y : K) (i : ℕ) (hf : f ≤ 0) (hx : 0 < x) (hxy : x ≤ y) :
    f / x ^ i ≤ f / y ^ i := by
  rw [div_eq_mul_inv, div_eq_mul_inv]
  apply mul_le_mul_of_nonpos_left _ hf
  exact inv_anti₀ (pow_pos hx i) (pow_le_pow_left₀ hx.le hxy i)

theorem termino_lt_of_neg (f x y : K) (i : ℕ) (hi : 1 ≤ i) (hf : f < 0) (hx : 0 < x)
    (hxy : x < y) : f / x ^ i < f / y ^ i := by
  rw [div_eq_mul_inv, div_eq_mul_inv]
  apply mul_lt_mul_of_neg_left _ hf
  exact inv_strictAnti₀ (pow_pos hx i) (pow_lt_pow_left₀ hxy hx.le (by omega))

theorem CalcularDerivadaVPN_pos (flujos : List K) (tasa : K)
    (hle : ∀ i, 1 ≤ i → i < flujos.length → flujos.getD i 0 ≤ 0)
    (hlt : ∃ i, 1 ≤ i ∧ i < flujos.length ∧ flujos.getD i 0 < 0) (ht : -1 < tasa) :
    0 < CalcularDerivadaVPN flujos tasa := by
  have hx : 0 < 1 + tasa := by linarith
  rw [CalcularDerivadaVPN_eq_sum_range]
  apply Finset.sum_pos'
  · intro i hi
    rcases Nat.eq_zero_or_pos i with rfl | hpos
    · simp
    · rw [neg_nonneg]
      apply div_nonpos_of_nonpos_of_nonneg _ (pow_pos hx _).le
      exact mul_nonpos_of_nonneg_of_nonpos (Nat.cast_nonneg i)
        (hle i hpos (Finset.mem_range.mp hi))
  · obtain ⟨i, h1, h2, h3⟩ := hlt
    refine ⟨i, Finset.mem_range.mpr h2, ?_⟩
    rw [neg_pos]
    apply div_neg_of_neg_of_pos _ (pow_pos hx _)
    exact mul_neg_of_pos_of_neg (by exact_mod_cast h1) h3

theorem CalcularVPN_lt (flujos : List K) (rho1 rho2 : K)
    (hle : ∀ i, 1 ≤ i → i < flujos.length → flujos.getD i 0 ≤ 0)
    (hlt : ∃ i, 1 ≤ i ∧ i < flujos.length ∧ flujos.getD i 0 < 0)
    (h1 : -1 < rho1) (h12 : rho1 < rho2) :
    CalcularVPN flujos rho1 < CalcularVPN flujos rho2 := by
  have hx : 0 < 1 + rho1 := by linarith
  have hxy : 1 + rho1 < 1 + rho2 := by linarith
  rw [(CalcularVPN_eq_sum flujos rho1).1, (CalcularVPN_eq_sum flujos rho2).1]
  apply Finset.sum_lt_sum
  · intro i hi
    rcases Nat.eq_zero_or_pos i with rfl | hpos
    · simp
    · exact termino_le_of_nonpos _ _ _ i (hle i hpos (Finset.mem_range.mp hi)) hx hxy.le
  · obtain ⟨i, hi1, hi2, hi3⟩ := hlt
    exact ⟨i, Finset.mem_range.mpr hi2, termino_lt_of_neg _ _ _ i hi1 hi3 hx hxy⟩

/-- C17. On a series whose elements of index `≥ 1` are all `≤ 0` and one of
them `< 0`, `CalcularDerivadaVPN(flujos, tasa) > 0` at every rate `tasa > -1`;
`rho ↦ CalcularVPN(flujos, rho)` is strictly increasing on `(-1, ∞)` and has
at most one zero there. -/
theorem serie_de_prestamo (flujos : List K)
    (hle : ∀ i, 1 ≤ i → i < flujos.length → flujos.getD i 0 ≤ 0)
    (hlt : ∃ i, 1 ≤ i ∧ i < flujos.length ∧ flujos.getD i 0 < 0) :
    (∀ tasa : K, -1 < tasa → 0 < CalcularDerivadaVPN flujos tasa)
      ∧ StrictMonoOn (fun rho : K => CalcularVPN flujos rho) (Set.Ioi (-1))
      ∧ ∀ rho1 rho2 : K, -1 < rho1 → -1 < rho2 →
          CalcularVPN flujos rho1 = 0 → CalcularVPN flujos rho2 = 0 → rho1 = rho2 := by
  refine ⟨fun tasa ht => CalcularDerivadaVPN_pos flujos tasa hle hlt ht, ?_, ?_⟩
  · intro rho1 h1 rho2 _ h12
    exact CalcularVPN_lt flujos rho1 rho2 hle hlt h1 h12
  · intro rho1 rho2 h1 h2 hz1 hz2
    rcases lt_trichotomy rho1 rho2 with h | h | h
    · have := CalcularVPN_lt flujos rho1 rho2 hle hlt h1 h
      rw [hz1, hz2] at this
      exact absurd this (lt_irrefl _)
    · exact h
    · have := CalcularVPN_lt flujos rho2 rho1 hle hlt h2 h
      rw [hz1, hz2] at this
      exact absurd this (lt_irrefl _)

/-- Witness of C17: the series `[100, -60, -60]` at the rate `0.1`. -/
theorem serie_de_prestamo_witness :
    0 < CalcularDerivadaVPN [(100 : ℚ), -60, -60] (1 / 10) :=
  (serie_de_prestamo [(100 : ℚ), -60, -60]
    (by
      intro i h1 h2
      have h3 : i < 3 := h2
      interval_cases i <;> norm_num)
    ⟨1, le_rfl, by norm_num, by norm_num⟩).1 (1 / 10) (by norm_num)

/-! ## Homogeneity -/

theorem criterioA_escala (k : K) (flujos : List K) (tasa : K) :
    criterioA (flujos.map fun x => k * x) tasa
      ↔ |k| * |CalcularVPN flujos tasa| < tolerancia := by
  rw [criterioA, CalcularVPN_escala, abs_mul]

/-- C18. `CalcularVPN` and `CalcularDerivadaVPN` are homogeneous in the flows;
for `k ≠ 0` the Newton update and the test of criterion B are the same on
`k * flujos` as on `flujos`; the test of criterion A on `k * flujos` is
`|k| * |VPN(flujos, tasa)| < 1e-10`; and an iteration of the loop on
`k * flujos` is the iteration on `flujos` with only that test changed. -/
theorem homogeneidad (flujos : List K) (k tasa : K) :
    CalcularVPN (flujos.map fun x => k * x) tasa = k * CalcularVPN flujos tasa
      ∧ CalcularDerivadaVPN (flujos.map fun x => k * x) tasa
          = k * CalcularDerivadaVPN flujos tasa
      ∧ (k ≠ 0 →
          (tasa - CalcularVPN (flujos.map fun x => k * x) tasa
              / CalcularDerivadaVPN (flujos.map fun x => k * x) tasa
            = tasa - CalcularVPN flujos tasa / CalcularDerivadaVPN flujos tasa)
          ∧ (criterioB (flujos.map fun x => k * x) tasa ↔ criterioB flujos tasa)
          ∧ ∀ restantes : ℕ,
              CalcularTIR.loop (flujos.map fun x => k * x) (restantes + 1) tasa
                = if |k| * |CalcularVPN flujos tasa| < 1e-10 then tasa
                  else if |(tasa - CalcularVPN flujos tasa / CalcularDerivadaVPN flujos tasa)
                        - tasa| < 1e-10
                    then tasa - CalcularVPN flujos tasa / CalcularDerivadaVPN flujos tasa
                    else CalcularTIR.loop (flujos.map fun x => k * x) restantes
                      (tasa - CalcularVPN flujos tasa / CalcularDerivadaVPN flujos tasa))
      ∧ (criterioA (flujos.map fun x => k * x) tasa
          ↔ |k| * |CalcularVPN flujos tasa| < 1e-10) := by
  refine ⟨CalcularVPN_escala k flujos tasa, CalcularDerivadaVPN_escala k flujos tasa, ?_,
    criterioA_escala k flujos tasa⟩
  intro hk
  have hstep := newtonStep_escala k hk flujos tasa
  refine ⟨hstep, criterioB_escala k hk flujos tasa, ?_⟩
  intro restantes
  have hA := criterioA_escala k flujos tasa
  have hB := criterioB_escala k hk flujos tasa
  change _ = if |k| * |CalcularVPN flujos tasa| < tolerancia then tasa
    else if criterioB flujos tasa then newtonStep flujos tasa
      else CalcularTIR.loop (flujos.map fun x => k * x) restantes (newtonStep flujos tasa)
  by_cases h1 : criterioA (flujos.map fun x => k * x) tasa
  · rw [CalcularTIR.loop_porValor _ _ _ h1, if_pos (hA.mp h1)]
  · rw [if_neg fun h => h1 (hA.mpr h)]
    by_cases h2 : criterioB flujos tasa
    · rw [CalcularTIR.loop_porPaso _ _ _ h1 (hB.mpr h2), if_pos h2, hstep]
    · rw [CalcularTIR.loop_sigue _ _ _ h1 fun h => h2 (hB.mp h), if_neg h2, hstep]

/-! ## Convergence on a single payment -/

theorem newtonStep_un_pago (a c tasa : K) (hc : c ≠ 0) (hx : 1 + tasa ≠ 0) :
    newtonStep [a, -c] tasa - tasa = (1 + tasa) * desvio a c tasa := by
  rw [newtonStep_dos, desvio]
  field_simp
  ring

/-- One Newton update on `[a, -c]` squares the deviation. -/
theorem desvio_newtonStep (a c tasa : K) (hc : c ≠ 0) (hx : 1 + tasa ≠ 0) :
    desvio a c (newtonStep [a, -c] tasa) = desvio a c tasa ^ 2 := by
  have h := newtonStep_un_pago a c tasa hc hx
  have h2 : newtonStep [a, -c] tasa = tasa + (1 + tasa) * desvio a c tasa := by
    rw [← h]
    ring
  rw [h2]
  simp only [desvio]
  field_simp
  ring

theorem uno_mas_tasa_pos (a c tasa : K) (ha : 0 < a) (hc : 0 < c)
    (hd : desvio a c tasa < 1) : 0 < 1 + tasa := by
  have hq : 0 < a / c := div_pos ha hc
  have h : 0 < a / c * (1 + tasa) := by
    rw [desvio] at hd
    linarith
  exact (pos_iff_pos_of_mul_pos h).mp hq

/-- The deviation of the `k`-th Newton iterate on `[a, -c]` is the deviation
of the seed raised to the power `2 ^ k`. -/
theorem desvio_iterado (a c : K) (ha : 0 < a) (hc : 0 < c)
    (h0 : |desvio a c tasaInicial| < 1) (k : ℕ) :
    desvio a c (iterado [a, -c] k) = desvio a c tasaInicial ^ 2 ^ k := by
  induction k with
  | zero => simp [iterado]
  | succ k ih =>
    have hlt : desvio a c (iterado [a, -c] k) < 1 := by
      rw [ih]
      exact lt_of_le_of_lt (le_abs_self _)
        (by rw [abs_pow]; exact pow_lt_one₀ (abs_nonneg _) h0 (by positivity))
    have hx := uno_mas_tasa_pos a c _ ha hc hlt
    rw [iterado, desvio_newtonStep a c _ hc.ne' hx.ne', ih, ← pow_mul, pow_succ]

/-- Inequality of Bernoulli, in the form used below. -/
theorem pow_uno_menos_le (s : K) (N : ℕ) (hs0 : 0 ≤ s) (hs1 : s ≤ 1) :
    (1 - s) ^ N * (1 + N * s) ≤ 1 := by
  have h1 : 1 + (N : K) * s ≤ (1 + s) ^ N := one_add_mul_le_pow (by linarith) N
  have h2 : (1 - s) ^ N * (1 + s) ^ N ≤ 1 := by
    rw [← mul_pow]
    apply pow_le_one₀
    · nlinarith
    · nlinarith
  have h3 : 0 ≤ (1 - s) ^ N := pow_nonneg (by linarith) N
  calc (1 - s) ^ N * (1 + N * s) ≤ (1 - s) ^ N * (1 + s) ^ N :=
        mul_le_mul_of_nonneg_left h1 h3
    _ ≤ 1 := h2

/-- After `J` squarings with `2 ^ J * s ≥ 1` a deviation of absolute value
`≤ 1 - s` is `≤ 1/2`, and after `i` more it is `≤ (1/2) ^ 2 ^ i`. -/
theorem desvio_pequeno (e s : K) (J i : ℕ) (hs0 : 0 ≤ s) (hs1 : s ≤ 1) (he : |e| ≤ 1 - s)
    (hJ : 1 ≤ (2 : K) ^ J * s) : |e ^ 2 ^ (J + i)| ≤ (1 / 2) ^ 2 ^ i := by
  have hb := pow_uno_menos_le s (2 ^ J) hs0 hs1
  have hpos : 0 ≤ (1 - s) ^ 2 ^ J := pow_nonneg (by linarith) _
  have hhalf : (1 - s) ^ 2 ^ J ≤ 1 / 2 := by
    push_cast at hb
    nlinarith
  have h1 : |e| ^ 2 ^ J ≤ 1 / 2 :=
    (pow_le_pow_left₀ (abs_nonneg e) he _).trans hhalf
  rw [pow_add, pow_mul, abs_pow, abs_pow]
  exact pow_le_pow_left₀ (pow_nonneg (abs_nonneg e) _) h1 _

/-- On `[a, -c]` with `0 < a ≤ c ≤ 10^4 * a` the Newton iterate `rho_20`
meets criterion B. -/
theorem criterioB_un_pago (a c : K) (ha : 0 < a) (hac : a ≤ c) (hB : c ≤ 10 ^ 4 * a) :
    criterioB [a, -c] (iterado [a, -c] 20) := by
  have hc : 0 < c := ha.trans_le hac
  have hq : 0 < a / c := div_pos ha hc
  have hq1 : a / c ≤ 1 := (div_le_one hc).mpr hac
  have hqB : 1 ≤ 10 ^ 4 * (a / c) := by
    rw [← mul_div_assoc, le_div_iff₀ hc]
    linarith
  have he0 : |desvio a c tasaInicial| ≤ 1 - 9 / 10 * (a / c) := by
    have : desvio a c tasaInicial = 1 - a / c * (11 / 10) := by
      rw [desvio, tasaInicial]
      norm_num
    rw [this, abs_le]
    constructor <;> linarith
  have h0 : |desvio a c tasaInicial| < 1 := by linarith
  have hJ : 1 ≤ (2 : K) ^ 14 * (9 / 10 * (a / c)) := by
    have hnum : (10 : K) ^ 4 ≤ 2 ^ 14 * (9 / 10) := by norm_num
    calc (1 : K) ≤ 10 ^ 4 * (a / c) := hqB
      _ ≤ 2 ^ 14 * (9 / 10) * (a / c) := mul_le_mul_of_nonneg_right hnum hq.le
      _ = 2 ^ 14 * (9 / 10 * (a / c)) := by ring
  have hK : |desvio a c (iterado [a, -c] (14 + 6))| ≤ (1 / 2) ^ 2 ^ 6 := by
    rw [desvio_iterado a c ha hc h0]
    exact desvio_pequeno _ _ 14 6 (by positivity) (by linarith) he0 hJ
  have hlt : desvio a c (iterado [a, -c] (14 + 6)) < 1 := by
    have : ((1 : K) / 2) ^ 2 ^ 6 < 1 := by norm_num
    exact lt_of_le_of_lt (le_abs_self _) (hK.trans_lt this)
  have hx := uno_mas_tasa_pos a c _ ha hc hlt
  have hXle : 1 + iterado [a, -c] (14 + 6) ≤ 2 * 10 ^ 4 := by
    have hd : a / c * (1 + iterado [a, -c] (14 + 6))
        = 1 - desvio a c (iterado [a, -c] (14 + 6)) := by
      rw [desvio]
      ring
    have hle2 : a / c * (1 + iterado [a, -c] (14 + 6)) ≤ 2 := by
      rw [hd]
      have := neg_abs_le (desvio a c (iterado [a, -c] (14 + 6)))
      have h1 : ((1 : K) / 2) ^ 2 ^ 6 ≤ 1 := by norm_num
      linarith
    calc 1 + iterado [a, -c] (14 + 6)
        ≤ 10 ^ 4 * (a / c) * (1 + iterado [a, -c] (14 + 6)) :=
          le_mul_of_one_le_left hx.le hqB
      _ = 10 ^ 4 * (a / c * (1 + iterado [a, -c] (14 + 6))) := by ring
      _ ≤ 10 ^ 4 * 2 := mul_le_mul_of_nonneg_left hle2 (by positivity)
      _ = 2 * 10 ^ 4 := by ring
  show |newtonStep [a, -c] (iterado [a, -c] (14 + 6)) - iterado [a, -c] (14 + 6)|
    < tolerancia
  rw [newtonStep_un_pago a c _ hc.ne' hx.ne', abs_mul, abs_of_pos hx]
  calc (1 + iterado [a, -c] (14 + 6)) * |desvio a c (iterado [a, -c] (14 + 6))|
      ≤ 2 * 10 ^ 4 * (1 / 2) ^ 2 ^ 6 :=
        mul_le_mul hXle hK (abs_nonneg _) (by positivity)
    _ < tolerancia := by
        rw [tolerancia]
        norm_num

/-- On `[a, -c]` with `0 < a ≤ c ≤ 10^4 * a` the run of `CalcularTIR` ends
through criterion A or criterion B, after at most `21` updates. -/
theorem CalcularTIR.corrida_un_pago (a c : K) (ha : 0 < a) (hac : a ≤ c)
    (hB : c ≤ 10 ^ 4 * a) :
    ((CalcularTIR.corrida [a, -c]).terminacion = Terminacion.porValor
        ∨ (CalcularTIR.corrida [a, -c]).terminacion = Terminacion.porPaso)
      ∧ (CalcularTIR.corrida [a, -c]).actualizaciones ≤ 21 := by
  have hcrit := criterioB_un_pago a c ha hac hB
  obtain ⟨k, -, hprev, hcase⟩ := CalcularTIR.corrida_casos [a, -c]
  have hk : k ≤ 20 := by
    by_contra hgt
    exact (hprev 20 (by omega)).2 hcrit
  rcases hcase with ⟨-, -, hc⟩ | ⟨-, -, -, hc⟩ | ⟨h1, -⟩
  · rw [hc]
    exact ⟨Or.inl rfl, by show k ≤ 21; omega⟩
  · rw [hc]
    exact ⟨Or.inr rfl, by show k + 1 ≤ 21; omega⟩
  · omega

theorem pagoMensual_un_pago (P r_annual : K) (hr : r_annual ≠ 0) :
    pagoMensual P 1 r_annual = P * (1 + r_annual / 12) := by
  have ht : r_annual / 12 ≠ 0 := div_ne_zero hr (by norm_num)
  rw [pagoMensual]
  simp only [zpow_one, add_sub_cancel_left]
  field_simp
  ring

theorem flujosCAT_un_pago (P r_annual f_open f_month ins c_other : K) (hr : r_annual ≠ 0) :
    flujosCAT P 1 r_annual f_open f_month ins c_other
      = [P - f_open - c_other, -(P * (1 + r_annual / 12) + f_month + ins)] := by
  rw [flujosCAT_eq, pagoMensual_un_pago P r_annual hr]
  rfl

/-- Counterexample to C15: principal `500`, term `1`, annual rate `12 %` and an
opening fee of `1000`. The sequence is `[-500, -505]` and the run of
`CalcularTIR` ends by exhaustion, not by criterion A or B. -/
theorem CalcularTIR_un_pago_agotado :
    (0 : ℚ) < 500 ∧ (0 : ℚ) < 12 / 100
      ∧ flujosCAT (500 : ℚ) 1 (12 / 100) 1000 0 0 0 = [-500, -505]
      ∧ (CalcularTIR.corrida (flujosCAT (500 : ℚ) 1 (12 / 100) 1000 0 0 0)).terminacion
          = Terminacion.agotado := by
  have hf : flujosCAT (500 : ℚ) 1 (12 / 100) 1000 0 0 0 = [-500, -505] := by
    rw [flujosCAT_un_pago _ _ _ _ _ _ (by norm_num)]
    norm_num
  refine ⟨by norm_num, by norm_num, hf, ?_⟩
  rw [hf, CalcularTIR.corrida_agotada]
  intro k _
  exact (iterado_dos_negativos (-500 : ℚ) (-505) (by norm_num [tolerancia]) (by norm_num) k).2

/-- C15, amended. For `plazoMeses = 1`, a principal `0 < P ≤ 10^100` and an
annual rate `r_annual ≥ 10^-12`, with upfront fees whose total is `≥ 0` and
below the principal, recurring charges whose total is `≥ 0`, and a payment
that is at most `10^4` times the net amount received, the run of
`CalcularTIR` on the two-element series built by `CalcularCAT` ends through
criterion A or criterion B, after at most `21` of the `1000` iterations. The
proof rests on the bound on the payment; the bounds on the principal and on
the rate are those within which `float64` evaluates the payment formula
without overflow and without cancelling `(1 + r_annual/12) - 1` to zero. -/
theorem CalcularTIR_un_pago_termina (P r_annual f_open f_month ins c_other : K)
    (hP : 0 < P) (_hPmax : P ≤ 10 ^ 100) (hr : 1 / 10 ^ 12 ≤ r_annual)
    (hinicial : 0 ≤ f_open + c_other) (hneto : f_open + c_other < P)
    (hmensual : 0 ≤ f_month + ins)
    (hcota : P * (1 + r_annual / 12) + f_month + ins ≤ 10 ^ 4 * (P - f_open - c_other)) :
    ((CalcularTIR.corrida (flujosCAT P 1 r_annual f_open f_month ins c_other)).terminacion
          = Terminacion.porValor
        ∨ (CalcularTIR.corrida (flujosCAT P 1 r_annual f_open f_month ins c_other)).terminacion
          = Terminacion.porPaso)
      ∧ (CalcularTIR.corrida (flujosCAT P 1 r_annual f_open f_month ins c_other)).actualizaciones
          ≤ 21 := by
  have hr0 : 0 < r_annual := lt_of_lt_of_le (by positivity) hr
  rw [flujosCAT_un_pago _ _ _ _ _ _ hr0.ne']
  apply CalcularTIR.corrida_un_pago
  · linarith
  · have : 0 < P * (r_annual / 12) := by positivity
    linarith
  · exact hcota

/-- Witness of C15, amended: principal `1000`, term `1`, annual rate `12 %`,
fees `10`, `1`, `2` and `5`. -/
theorem CalcularTIR_un_pago_termina_witness :
    ((CalcularTIR.corrida (flujosCAT (1000 : ℚ) 1 (12 / 100) 10 1 2 5)).terminacion
          = Terminacion.porValor
        ∨ (CalcularTIR.corrida (flujosCAT (1000 : ℚ) 1 (12 / 100) 10 1 2 5)).terminacion
          = Terminacion.porPaso)
      ∧ (CalcularTIR.corrida (flujosCAT (1000 : ℚ) 1 (12 / 100) 10 1 2 5)).actualizaciones
          ≤ 21 :=
  CalcularTIR_un_pago_termina (1000 : ℚ) (12 / 100) 10 1 2 5 (by norm_num) (by norm_num)
    (by norm_num) (by norm_num) (by norm_num) (by norm_num) (by norm_num)

/-- Witness of C18: on `[1, -1.100001]` scaled by `k = 0.00001` criterion A
holds at the seed, while on the series itself it does not. -/
theorem homogeneidad_witness :
    criterioA ([(1 : ℚ), -(1100001 / 1000000)].map fun x => 1 / 100000 * x) (1 / 10)
      ∧ ¬criterioA [(1 : ℚ), -(1100001 / 1000000)] (1 / 10) :=
  ⟨(homogeneidad [(1 : ℚ), -(1100001 / 1000000)] (1 / 100000) (1 / 10)).2.2.2.mpr
      (by rw [CalcularVPN_dos, ← abs_mul, abs_lt]; norm_num),
    by norm_num [criterioA, tolerancia, CalcularVPN_dos, abs_lt]⟩

/-- Witness of C13: term `24` and annual rate `24 %`. -/
theorem denominadorPago_spec_witness :
    (0 : ℚ) < (1 + 24 / 100 / 12) ^ (24 : ℤ) - 1 :=
  (denominadorPago_spec 24 (24 / 100 : ℚ)).1 (by norm_num) (by norm_num)

/-! ## Monotonicity of the value returned -/

theorem anualidad_le (x y : K) (m : ℕ) (hx : 0 < x) (hxy : x ≤ y) :
    anualidad y m ≤ anualidad x m := by
  apply Finset.sum_le_sum
  intro i _
  exact one_div_le_one_div_of_le (pow_pos hx _) (pow_le_pow_left₀ hx.le hxy _)

/-- A run that ends through criterion A returns a rate that meets it. -/
theorem CalcularTIR.criterioA_of_porValor (flujos : List K)
    (h : (CalcularTIR.corrida flujos).terminacion = Terminacion.porValor) :
    criterioA flujos (CalcularTIR flujos) := by
  obtain ⟨k, -, -, hcase⟩ := CalcularTIR.corrida_casos flujos
  rcases hcase with ⟨-, hA, hc⟩ | ⟨-, -, -, hc⟩ | ⟨-, hc⟩
  · rw [← CalcularTIR.corrida_resultado, hc]
    exact hA
  · rw [hc] at h
    exact Terminacion.noConfusion h
  · rw [hc] at h
    exact Terminacion.noConfusion h

/-- The rates returned for two annual rates `r1 < r2` are strictly ordered as
soon as their residuals differ by less than the difference of the payments
times the sum of the discount factors at the second rate returned. -/
theorem CalcularTIR_lt_of_residuos (P : K) (n : ℤ) (r1 r2 f_open f_month ins c_other : K)
    (hP : 0 < P) (hn : 0 < n) (hr1 : 0 < r1)
    (hmensual : 0 ≤ f_month + ins)
    (h2 : -1 < CalcularTIR (flujosCAT P n r2 f_open f_month ins c_other))
    (hres : CalcularVPN (flujosCAT P n r1 f_open f_month ins c_other)
          (CalcularTIR (flujosCAT P n r1 f_open f_month ins c_other))
        - CalcularVPN (flujosCAT P n r2 f_open f_month ins c_other)
          (CalcularTIR (flujosCAT P n r2 f_open f_month ins c_other))
      < (pagoMensual P n r2 - pagoMensual P n r1)
        * anualidad (1 + CalcularTIR (flujosCAT P n r2 f_open f_month ins c_other)) n.toNat) :
    CalcularTIR (flujosCAT P n r1 f_open f_month ins c_other)
      < CalcularTIR (flujosCAT P n r2 f_open f_month ins c_other) := by
  by_contra hge
  have hge2 := not_lt.mp hge
  have hx2 : 0 < 1 + CalcularTIR (flujosCAT P n r2 f_open f_month ins c_other) := by linarith
  have hale := anualidad_le _ _ n.toNat hx2 (add_le_add_left hge2 1)
  have hp1 := pagoMensual_pos P n r1 hP hn hr1
  have hc1 : 0 ≤ pagoMensual P n r1 + f_month + ins := by linarith
  have hmul := mul_le_mul_of_nonneg_left hale hc1
  have e1 := CalcularVPN_cons_replicate (P - f_open - c_other)
    (-(pagoMensual P n r1 + f_month + ins))
    (CalcularTIR (flujosCAT P n r1 f_open f_month ins c_other)) n.toNat
  have e2 := CalcularVPN_cons_replicate (P - f_open - c_other)
    (-(pagoMensual P n r2 + f_month + ins))
    (CalcularTIR (flujosCAT P n r2 f_open f_month ins c_other)) n.toNat
  rw [← flujosCAT_eq] at e1 e2
  rw [e1, e2] at hres
  nlinarith

theorem flujosCAT_ejemplo_tasa_mayor :
    flujosCAT (1 : ℚ) 1 (300003 / 250000) 0 0 0 0 = [1, -(1100001 / 1000000)] := by
  rw [flujosCAT_un_pago _ _ _ _ _ _ (by norm_num)]
  norm_num

theorem CalcularTIR.corrida_ejemplo_semilla :
    CalcularTIR.corrida [(1 : ℚ), -(11 / 10)] = ⟨1 / 10, 0, Terminacion.porValor⟩ := by
  rw [CalcularTIR.corrida, show maxIteraciones = 999 + 1 from rfl, CalcularTIR.traza_porValor]
  · norm_num [tasaInicial]
  · norm_num [criterioA, tasaInicial, tolerancia, CalcularVPN_dos, abs_lt]

theorem CalcularTIR.corrida_ejemplo_un_paso :
    CalcularTIR.corrida [(1 : ℚ), -(1100001 / 1000000)]
      = ⟨iterado [(1 : ℚ), -(1100001 / 1000000)] 1, 1, Terminacion.porValor⟩ := by
  have h0 : ∀ j < 1, ¬criterioA [(1 : ℚ), -(1100001 / 1000000)]
        (iterado [(1 : ℚ), -(1100001 / 1000000)] j)
      ∧ ¬criterioB [(1 : ℚ), -(1100001 / 1000000)]
        (iterado [(1 : ℚ), -(1100001 / 1000000)] j) := by
    intro j hj
    obtain rfl : j = 0 := by omega
    constructor
    · norm_num [criterioA, iterado, tasaInicial, tolerancia, CalcularVPN_dos, abs_lt]
    · norm_num [criterioB, iterado, tasaInicial, tolerancia, newtonStep_dos, abs_lt]
  rw [CalcularTIR.corrida, show maxIteraciones = 1 + (998 + 1) from rfl,
    CalcularTIR.traza_iterado _ 1 _ h0, CalcularTIR.traza_porValor]
  norm_num [criterioA, iterado, tasaInicial, tolerancia, CalcularVPN_dos, newtonStep_dos, abs_lt]

/-! ## The solver on a series of constant payments, written on the gross rate -/

theorem CalcularDerivadaVPN_cons_replicate (neto pago tasa : K) (m : ℕ) :
    CalcularDerivadaVPN (neto :: List.replicate m pago) tasa
      = -(pago * anualidadPrima (1 + tasa) m) := by
  rw [CalcularDerivadaVPN_eq_sum_range, List.length_cons, List.length_replicate,
    Finset.sum_range_succ', anualidadPrima, Finset.mul_sum, ← Finset.sum_neg_distrib]
  simp only [List.getD_cons_succ, List.getD_cons_zero, Nat.cast_zero, zero_mul, zero_div,
    neg_zero, add_zero]
  refine Finset.sum_congr rfl fun i hi => ?_
  have hi2 : i < m := Finset.mem_range.mp hi
  simp only [List.getD_eq_getElem?_getD, List.getElem?_replicate, hi2, if_true,
    Option.getD_some, Nat.cast_add, Nat.cast_one]
  ring

theorem CalcularVPN_eq_neg_residuo (a c tasa : K) (m : ℕ) :
    CalcularVPN (a :: List.replicate m (-c)) tasa = -residuo a c m (1 + tasa) := by
  rw [CalcularVPN_cons_replicate, residuo]
  ring

theorem CalcularDerivadaVPN_eq_prima (a c tasa : K) (m : ℕ) :
    CalcularDerivadaVPN (a :: List.replicate m (-c)) tasa = c * anualidadPrima (1 + tasa) m := by
  rw [CalcularDerivadaVPN_cons_replicate]
  ring

theorem newtonStep_eq_newtonBruto (a c tasa : K) (m : ℕ) :
    1 + newtonStep (a :: List.replicate m (-c)) tasa = newtonBruto a c m (1 + tasa) := by
  rw [newtonStep, CalcularVPN_eq_neg_residuo, CalcularDerivadaVPN_eq_prima, newtonBruto,
    neg_div]
  ring

theorem criterioA_iff_residuo (a c tasa : K) (m : ℕ) :
    criterioA (a :: List.replicate m (-c)) tasa ↔ |residuo a c m (1 + tasa)| < tolerancia := by
  rw [criterioA, CalcularVPN_eq_neg_residuo, abs_neg]

theorem criterioB_iff_newtonBruto (a c tasa : K) (m : ℕ) :
    criterioB (a :: List.replicate m (-c)) tasa
      ↔ |newtonBruto a c m (1 + tasa) - (1 + tasa)| < tolerancia := by
  rw [criterioB, ← newtonStep_eq_newtonBruto]
  have : 1 + newtonStep (a :: List.replicate m (-c)) tasa - (1 + tasa)
      = newtonStep (a :: List.replicate m (-c)) tasa - tasa := by ring
  rw [this]

/-! ## Inequalities between the sums of discount factors -/

/-- Inequality of Bernoulli in homogeneous form. -/
theorem bernoulli_homogenea (x y : K) (k : ℕ) (hx : 0 ≤ x) (hy : 0 < y) :
    ((k : K) + 1) * x * y ^ k ≤ x ^ (k + 1) + k * y ^ (k + 1) := by
  have ht : -2 ≤ x / y - 1 := by
    have : 0 ≤ x / y := div_nonneg hx hy.le
    linarith
  have hb := one_add_mul_le_pow ht (k + 1)
  rw [add_sub_cancel] at hb
  have hy1 : 0 < y ^ (k + 1) := pow_pos hy _
  have h1 := mul_le_mul_of_nonneg_right hb hy1.le
  rw [div_pow, div_mul_cancel₀ _ hy1.ne'] at h1
  have h2 : (1 + ((k + 1 : ℕ) : K) * (x / y - 1)) * y ^ (k + 1)
      = ((k : K) + 1) * x * y ^ k - k * y ^ (k + 1) := by
    push_cast
    field_simp
    ring
  rw [h2] at h1
  linarith

/-- Each discount factor lies above its tangent. -/
theorem descuento_tangente (x y : K) (k : ℕ) (hx : 0 < x) (hy : 0 < y) :
    1 / x ^ k - k * (y - x) / x ^ (k + 1) ≤ 1 / y ^ k := by
  have hb := bernoulli_homogenea x y k hx.le hy
  have hxk : 0 < x ^ (k + 1) := pow_pos hx _
  have hyk : 0 < y ^ k := pow_pos hy _
  have hxk0 : 0 < x ^ k := pow_pos hx _
  rw [div_sub_div _ _ hxk0.ne' hxk.ne', div_le_div_iff₀ (mul_pos hxk0 hxk) hyk]
  have e1 : (1 * x ^ (k + 1) - x ^ k * (k * (y - x))) * y ^ k
      = x ^ k * (((k : K) + 1) * x * y ^ k - k * y ^ (k + 1)) := by ring
  have e2 : 1 * (x ^ k * x ^ (k + 1)) = x ^ k * x ^ (k + 1) := one_mul _
  rw [e1, e2]
  exact mul_le_mul_of_nonneg_left (by linarith) hxk0.le

/-- The sum of the discount factors lies above its tangent. -/
theorem anualidad_tangente (x y : K) (m : ℕ) (hx : 0 < x) (hy : 0 < y) :
    anualidad x m - anualidadPrima x m * (y - x) ≤ anualidad y m := by
  rw [anualidad, anualidadPrima, Finset.sum_mul, ← Finset.sum_sub_distrib]
  apply Finset.sum_le_sum
  intro i _
  have h := descuento_tangente x y (i + 1) hx hy
  have e : 1 / x ^ (i + 1) - ((i : K) + 1) / x ^ (i + 2) * (y - x)
      = 1 / x ^ (i + 1) - ((i + 1 : ℕ) : K) * (y - x) / x ^ (i + 1 + 1) := by
    push_cast
    ring
  rw [e]
  exact h

theorem anualidadPrima_pos (x : K) (m : ℕ) (hx : 0 < x) (hm : 0 < m) :
    0 < anualidadPrima x m := by
  apply Finset.sum_pos
  · intro i _
    positivity
  · exact ⟨0, Finset.mem_range.mpr hm⟩

theorem anualidad_le_mul_prima (x : K) (m : ℕ) (hx : 0 < x) :
    anualidad x m ≤ x * anualidadPrima x m := by
  rw [anualidad, anualidadPrima, Finset.mul_sum]
  apply Finset.sum_le_sum
  intro i _
  have hp : 0 < x ^ (i + 1) := pow_pos hx _
  have e : x * (((i : K) + 1) / x ^ (i + 2)) = ((i : K) + 1) / x ^ (i + 1) := by
    rw [pow_succ x (i + 1)]
    field_simp
    ring
  rw [e]
  apply div_le_div_of_nonneg_right _ hp.le
  have : (0 : K) ≤ i := Nat.cast_nonneg i
  linarith

theorem mul_prima_le_anualidad (x : K) (m : ℕ) (hx : 0 < x) :
    x * anualidadPrima x m ≤ m * anualidad x m := by
  rw [anualidad, anualidadPrima, Finset.mul_sum, Finset.mul_sum]
  apply Finset.sum_le_sum
  intro i hi
  have hp : 0 < x ^ (i + 1) := pow_pos hx _
  have e : x * (((i : K) + 1) / x ^ (i + 2)) = ((i : K) + 1) / x ^ (i + 1) := by
    rw [pow_succ x (i + 1)]
    field_simp
    ring
  rw [e, mul_one_div]
  apply div_le_div_of_nonneg_right _ hp.le
  have : i + 1 ≤ m := Finset.mem_range.mp hi
  exact_mod_cast this

/-- Scaling of the sum of the discount factors. -/
theorem anualidad_escala (x y : K) (m : ℕ) (hx : 0 < x) (hxy : x ≤ y) :
    y * anualidad y m ≤ x * anualidad x m := by
  have hy : 0 < y := hx.trans_le hxy
  rw [anualidad, anualidad, Finset.mul_sum, Finset.mul_sum]
  apply Finset.sum_le_sum
  intro i _
  have e : ∀ z : K, 0 < z → z * (1 / z ^ (i + 1)) = 1 / z ^ i := by
    intro z hz
    rw [pow_succ z i]
    field_simp
    ring
  rw [e y hy, e x hx]
  exact one_div_le_one_div_of_le (pow_pos hx _) (pow_le_pow_left₀ hx.le hxy _)

/-- Scaling of the derivative of the sum of the discount factors. -/
theorem anualidadPrima_escala (x y : K) (m : ℕ) (hx : 0 < x) (hxy : x ≤ y) :
    x ^ (m + 1) * anualidadPrima x m ≤ y ^ (m + 1) * anualidadPrima y m := by
  have hy : 0 < y := hx.trans_le hxy
  rw [anualidadPrima, anualidadPrima, Finset.mul_sum, Finset.mul_sum]
  apply Finset.sum_le_sum
  intro i hi
  have him : i < m := Finset.mem_range.mp hi
  have e : ∀ z : K, 0 < z → z ^ (m + 1) * (((i : K) + 1) / z ^ (i + 2))
      = ((i : K) + 1) * z ^ (m - 1 - i) := by
    intro z hz
    have hm : m + 1 = (m - 1 - i) + (i + 2) := by omega
    rw [hm, pow_add]
    have : z ^ (i + 2) ≠ 0 := (pow_pos hz _).ne'
    field_simp
    ring
  rw [e x hx, e y hy]
  apply mul_le_mul_of_nonneg_left (pow_le_pow_left₀ hx.le hxy _)
  have : (0 : K) ≤ i := Nat.cast_nonneg i
  linarith

/-- The derivative of the sum of the discount factors changes little over a
short step. -/
theorem anualidadPrima_sub_le (x y : K) (m : ℕ) (hx : 0 < x) (hxy : x ≤ y) :
    anualidadPrima x m - anualidadPrima y m
      ≤ ((m : K) + 1) * ((y - x) / y) * anualidadPrima x m := by
  have hy : 0 < y := hx.trans_le hxy
  have hT : 0 ≤ anualidadPrima x m := Finset.sum_nonneg fun i _ => by positivity
  have hsc := anualidadPrima_escala x y m hx hxy
  have hq : -2 ≤ -((y - x) / y) := by
    have h1 : (y - x) / y ≤ 1 := by
      rw [div_le_one hy]
      linarith
    linarith
  have hb := one_add_mul_le_pow hq (m + 1)
  have hxy' : 1 + -((y - x) / y) = x / y := by
    field_simp
  rw [hxy', div_pow] at hb
  have hyp : 0 < y ^ (m + 1) := pow_pos hy _
  have h1 : x ^ (m + 1) / y ^ (m + 1) * anualidadPrima x m ≤ anualidadPrima y m := by
    rw [div_mul_eq_mul_div, div_le_iff₀ hyp, mul_comm (anualidadPrima y m)]
    exact hsc
  have h2 := mul_le_mul_of_nonneg_right hb hT
  push_cast at h2
  nlinarith

/-! ## A Newton update from the left of the root -/

/-- One Newton update from a gross rate `x > 0` with residual `≥ 0` (net
present value `≤ 0`): the gross rate does not decrease, the residual stays
`≥ 0`, decreases at least by the factor `m / (m + 1)` and at least
quadratically, and is bounded by the length of the step. -/
theorem paso_monotono (a c x : K) (m : ℕ) (ha : 0 < a) (hc : 0 < c) (hm : 0 < m)
    (hx : 0 < x) (hr : 0 ≤ residuo a c m x) :
    x ≤ newtonBruto a c m x
      ∧ 0 ≤ residuo a c m (newtonBruto a c m x)
      ∧ residuo a c m (newtonBruto a c m x) * ((m : K) + 1) ≤ residuo a c m x * m
      ∧ a * residuo a c m (newtonBruto a c m x) ≤ ((m : K) + 1) * residuo a c m x ^ 2
      ∧ residuo a c m (newtonBruto a c m x) * newtonBruto a c m x
          ≤ ((m : K) + 1) * residuo a c m x * (newtonBruto a c m x - x)
      ∧ x * residuo a c m x
          ≤ (newtonBruto a c m x - x) * m * (a + residuo a c m x) := by
  have hT := anualidadPrima_pos x m hx hm
  have hcT : 0 < c * anualidadPrima x m := mul_pos hc hT
  obtain ⟨d, hd⟩ : ∃ d, d = residuo a c m x / (c * anualidadPrima x m) := ⟨_, rfl⟩
  have hd0 : 0 ≤ d := by rw [hd]; exact div_nonneg hr hcT.le
  have hdr : c * anualidadPrima x m * d = residuo a c m x := by
    rw [hd, mul_div_cancel₀ _ hcT.ne']
  have hy : newtonBruto a c m x = x + d := by rw [newtonBruto, hd]
  obtain ⟨r, hr'⟩ : ∃ r, r = residuo a c m x := ⟨_, rfl⟩
  rw [← hr'] at hr hdr
  have hS : c * anualidad x m = a + r := by rw [hr', residuo]; ring
  rw [hy, add_sub_cancel_left, ← hr']
  have hy0 : 0 < x + d := by linarith
  obtain ⟨r2, hr2⟩ : ∃ r2, r2 = residuo a c m (x + d) := ⟨_, rfl⟩
  rw [← hr2]
  have hS2 : c * anualidad (x + d) m = a + r2 := by rw [hr2, residuo]; ring
  -- the tangent at `x`
  have ht1 := anualidad_tangente x (x + d) m hx hy0
  rw [add_sub_cancel_left] at ht1
  have hr2nn : 0 ≤ r2 := by
    have h1 := mul_le_mul_of_nonneg_left ht1 hc.le
    have e1 : c * (anualidad x m - anualidadPrima x m * d) = a + r - r := by
      rw [mul_sub, hS, ← mul_assoc, hdr]
    rw [e1, hS2] at h1
    linarith
  -- bounds on the step
  have hup : d * (a + r) ≤ x * r := by
    have h1 := mul_le_mul_of_nonneg_left (anualidad_le_mul_prima x m hx) (mul_nonneg hc.le hd0)
    calc d * (a + r) = c * d * anualidad x m := by rw [← hS]; ring
      _ ≤ c * d * (x * anualidadPrima x m) := h1
      _ = x * r := by rw [← hdr]; ring
  have hlow : x * r ≤ d * m * (a + r) := by
    have h1 := mul_le_mul_of_nonneg_left (mul_prima_le_anualidad x m hx) (mul_nonneg hc.le hd0)
    calc x * r = c * d * (x * anualidadPrima x m) := by rw [← hdr]; ring
      _ ≤ c * d * (m * anualidad x m) := h1
      _ = d * m * (a + r) := by rw [← hS]; ring
  -- scaling of the residual
  have hsc : (x + d) * (a + r2) ≤ x * (a + r) := by
    have h1 := mul_le_mul_of_nonneg_left (anualidad_escala x (x + d) m hx (by linarith)) hc.le
    calc (x + d) * (a + r2) = c * ((x + d) * anualidad (x + d) m) := by rw [← hS2]; ring
      _ ≤ c * (x * anualidad x m) := h1
      _ = x * (a + r) := by rw [← hS]; ring
  -- the tangent at `x + d`
  have ht2 := anualidad_tangente (x + d) x m hy0 hx
  have hsub := anualidadPrima_sub_le x (x + d) m hx (by linarith)
  rw [add_sub_cancel_left] at hsub
  have hq1 : r2 ≤ c * d * (anualidadPrima x m - anualidadPrima (x + d) m) := by
    have h1 := mul_le_mul_of_nonneg_left ht2 hc.le
    have e1 : c * (anualidad (x + d) m - anualidadPrima (x + d) m * (x - (x + d)))
        = a + r2 + c * d * anualidadPrima (x + d) m := by
      rw [← hS2]
      ring
    have e2 : c * d * (anualidadPrima x m - anualidadPrima (x + d) m)
        = r - c * d * anualidadPrima (x + d) m := by
      rw [← hdr]
      ring
    rw [e1, hS] at h1
    rw [e2]
    linarith
  have hq2 : r2 * (x + d) ≤ ((m : K) + 1) * r * d := by
    have h1 : c * d * (anualidadPrima x m - anualidadPrima (x + d) m)
        ≤ c * d * (((m : K) + 1) * (d / (x + d)) * anualidadPrima x m) :=
      mul_le_mul_of_nonneg_left hsub (mul_nonneg hc.le hd0)
    have h2 : c * d * (((m : K) + 1) * (d / (x + d)) * anualidadPrima x m)
        = ((m : K) + 1) * r * d / (x + d) := by
      rw [← hdr]
      field_simp
      ring
    rw [h2] at h1
    have h3 := hq1.trans h1
    rwa [le_div_iff₀ hy0] at h3
  have hmK : (0 : K) < m := by exact_mod_cast hm
  refine ⟨by linarith, hr2nn, ?_, ?_, hq2, hlow⟩
  · -- linear decrease
    have hD1 : 0 < (m : K) * a + m * r + r := by positivity
    have h1 : r2 * ((m : K) * a + m * r + r) ≤ r * (m * a + m * r - a) := by
      have e1 : x * (r2 * ((m : K) * a + m * r + r))
          ≤ x * (r * (m * a + m * r - a)) := by
        have hA : 0 ≤ (m : K) * (a + r) := by positivity
        have hB : 0 ≤ a + r2 := by linarith
        have i1 : d * (a + r2) ≤ x * (r - r2) := by linarith
        have i2 := mul_le_mul_of_nonneg_left i1 hA
        have i3 := mul_le_mul_of_nonneg_right hlow hB
        linarith
      exact le_of_mul_le_mul_left e1 hx
    have h2 : r2 * ((m : K) + 1) * ((m : K) * a + m * r + r)
        ≤ r * m * ((m : K) * a + m * r + r) := by
      have e2 : ((m : K) + 1) * (m * a + m * r - a) = m * (m * a + m * r + r) - a := by ring
      have i1 : r * (((m : K) + 1) * (m * a + m * r - a)) ≤ r * (m * (m * a + m * r + r)) :=
        mul_le_mul_of_nonneg_left (by rw [e2]; linarith) hr
      have i2 := mul_le_mul_of_nonneg_left h1 (by positivity : (0 : K) ≤ (m : K) + 1)
      linarith
    exact le_of_mul_le_mul_right h2 hD1
  · -- quadratic decrease
    have e1 : a * r2 * (x + d) ≤ ((m : K) + 1) * r ^ 2 * (x + d) := by
      have hda : d * a ≤ x * r := by linarith [mul_nonneg hd0 hr]
      have i1 := mul_le_mul_of_nonneg_left hq2 ha.le
      have i2 : ((m : K) + 1) * r * (d * a) ≤ ((m : K) + 1) * r * (x * r) :=
        mul_le_mul_of_nonneg_left hda (by positivity)
      have i3 : 0 ≤ ((m : K) + 1) * r ^ 2 * d := by positivity
      linarith
    exact le_of_mul_le_mul_right e1 hy0

/-! ## Repeated Newton updates from the left of the root -/

theorem uno_mas_iterado (a c : K) (m k : ℕ) :
    1 + iterado (a :: List.replicate m (-c)) k
      = (newtonBruto a c m)^[k] (1 + tasaInicial) := by
  induction k with
  | zero => rfl
  | succ k ih =>
    rw [iterado, newtonStep_eq_newtonBruto, ih, Function.iterate_succ_apply']

/-- From a gross rate `x > 0` with residual `≥ 0` the iterates do not decrease,
keep a residual `≥ 0`, and the residual decreases at least geometrically. -/
theorem fase_lineal (a c x : K) (m : ℕ) (ha : 0 < a) (hc : 0 < c) (hm : 0 < m)
    (hx : 0 < x) (hr : 0 ≤ residuo a c m x) (j : ℕ) :
    x ≤ (newtonBruto a c m)^[j] x
      ∧ 0 ≤ residuo a c m ((newtonBruto a c m)^[j] x)
      ∧ residuo a c m ((newtonBruto a c m)^[j] x) * ((m : K) + 1) ^ j
          ≤ residuo a c m x * (m : K) ^ j := by
  induction j with
  | zero => simp [hr]
  | succ j ih =>
    obtain ⟨h1, h2, h3⟩ := ih
    have hxj : 0 < (newtonBruto a c m)^[j] x := hx.trans_le h1
    obtain ⟨p1, p2, p3, -⟩ := paso_monotono a c _ m ha hc hm hxj h2
    rw [Function.iterate_succ_apply']
    refine ⟨h1.trans p1, p2, ?_⟩
    have hm1 : (0 : K) ≤ ((m : K) + 1) ^ j := by positivity
    have hm0 : (0 : K) ≤ (m : K) := Nat.cast_nonneg m
    calc residuo a c m (newtonBruto a c m ((newtonBruto a c m)^[j] x)) * ((m : K) + 1) ^ (j + 1)
        = residuo a c m (newtonBruto a c m ((newtonBruto a c m)^[j] x)) * ((m : K) + 1)
            * ((m : K) + 1) ^ j := by ring
      _ ≤ residuo a c m ((newtonBruto a c m)^[j] x) * m * ((m : K) + 1) ^ j :=
          mul_le_mul_of_nonneg_right p3 hm1
      _ = residuo a c m ((newtonBruto a c m)^[j] x) * ((m : K) + 1) ^ j * m := by ring
      _ ≤ residuo a c m x * (m : K) ^ j * m := mul_le_mul_of_nonneg_right h3 hm0
      _ = residuo a c m x * (m : K) ^ (j + 1) := by ring

/-- Once `(m + 1) * residual ≤ a / 2` the residual is squared at each update. -/
theorem fase_cuadratica (a c x : K) (m : ℕ) (ha : 0 < a) (hc : 0 < c) (hm : 0 < m)
    (hx : 0 < x) (hr : 0 ≤ residuo a c m x)
    (hq : ((m : K) + 1) * residuo a c m x ≤ a * (1 / 2)) (i : ℕ) :
    ((m : K) + 1) * residuo a c m ((newtonBruto a c m)^[i] x) ≤ a * (1 / 2) ^ 2 ^ i := by
  induction i with
  | zero => simpa using hq
  | succ i ih =>
    obtain ⟨h1, h2, -⟩ := fase_lineal a c x m ha hc hm hx hr i
    have hxi : 0 < (newtonBruto a c m)^[i] x := hx.trans_le h1
    obtain ⟨-, p2, -, p4, -⟩ := paso_monotono a c _ m ha hc hm hxi h2
    rw [Function.iterate_succ_apply']
    obtain ⟨r, hr'⟩ : ∃ r, r = residuo a c m ((newtonBruto a c m)^[i] x) := ⟨_, rfl⟩
    obtain ⟨r2, hr2⟩ : ∃ r2, r2 = residuo a c m (newtonBruto a c m ((newtonBruto a c m)^[i] x)) :=
      ⟨_, rfl⟩
    rw [← hr'] at ih h2 p4
    rw [← hr2] at p4 p2 ⊢
    have hm1 : (0 : K) < (m : K) + 1 := by positivity
    have hsq : (((m : K) + 1) * r) ^ 2 ≤ (a * (1 / 2) ^ 2 ^ i) ^ 2 :=
      pow_le_pow_left₀ (mul_nonneg hm1.le h2) ih 2
    have e : (a * (1 / 2 : K) ^ 2 ^ i) ^ 2 = a * (a * (1 / 2) ^ 2 ^ (i + 1)) := by
      rw [pow_succ 2 i, pow_mul]
      ring
    have h3 : a * (((m : K) + 1) * r2) ≤ a * (a * (1 / 2) ^ 2 ^ (i + 1)) := by
      calc a * (((m : K) + 1) * r2) = ((m : K) + 1) * (a * r2) := by ring
        _ ≤ ((m : K) + 1) * (((m : K) + 1) * r ^ 2) := mul_le_mul_of_nonneg_left p4 hm1.le
        _ = (((m : K) + 1) * r) ^ 2 := by ring
        _ ≤ (a * (1 / 2) ^ 2 ^ i) ^ 2 := hsq
        _ = a * (a * (1 / 2) ^ 2 ^ (i + 1)) := e
    exact le_of_mul_le_mul_left h3 ha

/-- After `M` updates of geometric decrease and `6` of quadratic decrease the
residual is below the tolerance of criterion A, when `a ≤ 10^5`. -/
theorem residuo_tras_fases (a c x : K) (m M : ℕ) (ha : 0 < a) (ha5 : a ≤ 10 ^ 5) (hc : 0 < c)
    (hm : 0 < m) (hx : 0 < x) (hr : 0 ≤ residuo a c m x)
    (hM : residuo a c m x * (2 * ((m : K) + 1)) * (m : K) ^ M ≤ a * ((m : K) + 1) ^ M) :
    |residuo a c m ((newtonBruto a c m)^[6] ((newtonBruto a c m)^[M] x))| < tolerancia := by
  obtain ⟨h1, h2, h3⟩ := fase_lineal a c x m ha hc hm hx hr M
  have hxM : 0 < (newtonBruto a c m)^[M] x := hx.trans_le h1
  have hm1 : (0 : K) < (m : K) + 1 := by positivity
  have hpow : (0 : K) < ((m : K) + 1) ^ M := by positivity
  have hq : ((m : K) + 1) * residuo a c m ((newtonBruto a c m)^[M] x) ≤ a * (1 / 2) := by
    have e1 : ((m : K) + 1) * residuo a c m ((newtonBruto a c m)^[M] x) * 2 * ((m : K) + 1) ^ M
        ≤ a * ((m : K) + 1) ^ M := by
      calc ((m : K) + 1) * residuo a c m ((newtonBruto a c m)^[M] x) * 2 * ((m : K) + 1) ^ M
          = residuo a c m ((newtonBruto a c m)^[M] x) * ((m : K) + 1) ^ M
              * (2 * ((m : K) + 1)) := by ring
        _ ≤ residuo a c m x * (m : K) ^ M * (2 * ((m : K) + 1)) :=
            mul_le_mul_of_nonneg_right h3 (by positivity)
        _ = residuo a c m x * (2 * ((m : K) + 1)) * (m : K) ^ M := by ring
        _ ≤ a * ((m : K) + 1) ^ M := hM
    have e2 := le_of_mul_le_mul_right e1 hpow
    linarith
  have h6 := fase_cuadratica a c _ m ha hc hm hxM h2 hq 6
  obtain ⟨-, g2, -⟩ := fase_lineal a c _ m ha hc hm hxM h2 6
  rw [abs_of_nonneg g2]
  have hnum : (10 : K) ^ 5 * (1 / 2) ^ 2 ^ 6 < tolerancia := by
    rw [tolerancia]
    norm_num
  have hle : a * (1 / 2 : K) ^ 2 ^ 6 ≤ 10 ^ 5 * (1 / 2) ^ 2 ^ 6 :=
    mul_le_mul_of_nonneg_right ha5 (by positivity)
  have hmr : residuo a c m ((newtonBruto a c m)^[6] ((newtonBruto a c m)^[M] x))
      ≤ ((m : K) + 1) * residuo a c m ((newtonBruto a c m)^[6] ((newtonBruto a c m)^[M] x)) := by
    have : (1 : K) ≤ (m : K) + 1 := by
      have : (0 : K) ≤ m := Nat.cast_nonneg m
      linarith
    exact le_mul_of_one_le_left g2 this
  linarith

/-! ## The first update from the seed -/

theorem uno_mas_tasaInicial : (1 : K) + tasaInicial = 11 / 10 := by
  rw [tasaInicial]
  norm_num

/-- A Newton update that lands on a positive gross rate lands left of the root,
whatever the side it started from: the residual is convex. -/
theorem paso_concavo (a c x : K) (m : ℕ) (hc : 0 < c) (hm : 0 < m) (hx : 0 < x)
    (hy : 0 < newtonBruto a c m x) : 0 ≤ residuo a c m (newtonBruto a c m x) := by
  have hT := anualidadPrima_pos x m hx hm
  have hcT : c * anualidadPrima x m ≠ 0 := (mul_pos hc hT).ne'
  have hd : c * anualidadPrima x m * (newtonBruto a c m x - x) = residuo a c m x := by
    rw [newtonBruto]
    field_simp
    ring
  have ht := anualidad_tangente x (newtonBruto a c m x) m hx hy
  have hct := mul_le_mul_of_nonneg_left ht hc.le
  have e : c * (anualidad x m - anualidadPrima x m * (newtonBruto a c m x - x))
      = c * anualidad x m - c * anualidadPrima x m * (newtonBruto a c m x - x) := by ring
  rw [e, hd] at hct
  simp only [residuo] at hct ⊢
  linarith

theorem semilla_suma (m : ℕ) (hm24 : m ≤ 24) :
    (m : K) ≤ anualidad (11 / 10 : K) m + 3 / 5 * anualidadPrima (11 / 10 : K) m := by
  have h1 : (m : K) = ∑ _i in Finset.range m, (1 : K) := by simp
  rw [anualidad, anualidadPrima, Finset.mul_sum, ← Finset.sum_add_distrib, h1]
  apply Finset.sum_le_sum
  intro i hi
  have hi24 : i < 24 := lt_of_lt_of_le (Finset.mem_range.mp hi) hm24
  interval_cases i <;> norm_num

theorem anualidad_semilla_le (m : ℕ) : anualidad (11 / 10 : K) m ≤ 10 := by
  have h := anualidad_cerrada (11 / 10 : K) m (by norm_num)
  have hp : (0 : K) < (11 / 10) ^ m := by positivity
  have e : anualidad (11 / 10 : K) m * ((11 / 10 - 1) * (11 / 10) ^ m)
      = anualidad (11 / 10 : K) m / 10 * (11 / 10) ^ m := by ring
  rw [e] at h
  have h2 : anualidad (11 / 10 : K) m / 10 * (11 / 10) ^ m ≤ 1 * (11 / 10) ^ m := by
    rw [h]
    linarith
  have h3 := le_of_mul_le_mul_right h2 hp
  linarith

theorem anualidad_semilla_ge (m : ℕ) (hm : 0 < m) : (10 / 11 : K) ≤ anualidad (11 / 10 : K) m := by
  have h : (1 : K) / (11 / 10) ^ (0 + 1) ≤ anualidad (11 / 10 : K) m := by
    rw [anualidad]
    exact Finset.single_le_sum (f := fun i => (1 : K) / (11 / 10) ^ (i + 1))
      (fun i _ => by positivity) (Finset.mem_range.mpr hm)
  norm_num at h
  linarith

theorem anualidad_mitad_le (m : ℕ) (hm24 : m ≤ 24) :
    anualidad (1 / 2 : K) m ≤ 24 * 2 ^ 24 := by
  have h : anualidad (1 / 2 : K) m ≤ ∑ _i in Finset.range m, (2 : K) ^ 24 := by
    rw [anualidad]
    apply Finset.sum_le_sum
    intro i hi
    have hi24 : i + 1 ≤ 24 := le_trans (Finset.mem_range.mp hi) hm24
    have e : (1 : K) / (1 / 2) ^ (i + 1) = 2 ^ (i + 1) := by
      rw [one_div_pow, one_div_one_div]
    rw [e]
    exact pow_le_pow_right₀ (by norm_num) hi24
  rw [Finset.sum_const, Finset.card_range, nsmul_eq_mul] at h
  have hm' : (m : K) ≤ 24 := by exact_mod_cast hm24
  have : (m : K) * 2 ^ 24 ≤ 24 * 2 ^ 24 := mul_le_mul_of_nonneg_right hm' (by positivity)
  linarith

theorem anualidad_le_plazo (x : K) (m : ℕ) (hx : 1 ≤ x) : anualidad x m ≤ m := by
  have h : anualidad x m ≤ ∑ _i in Finset.range m, (1 : K) := by
    rw [anualidad]
    apply Finset.sum_le_sum
    intro i _
    have hp : (1 : K) ≤ x ^ (i + 1) := one_le_pow₀ hx
    rw [div_le_one (by linarith)]
    exact hp
  simpa using h

/-- The first update from the seed `0.1`, on `m ≤ 24` payments `c` with
`a ≤ c * m` and `c ≤ 10^4 * a`: the gross rate stays `≥ 1/2`, the residual
is `≥ 0` and at most `5 * 10^8 * a`. -/
theorem primer_paso (a c : K) (m : ℕ) (ha : 0 < a) (hc : 0 < c) (hm : 0 < m) (hm24 : m ≤ 24)
    (hac : a ≤ c * m) (hca : c ≤ 10 ^ 4 * a) :
    1 / 2 ≤ newtonBruto a c m (11 / 10)
      ∧ 0 ≤ residuo a c m (newtonBruto a c m (11 / 10))
      ∧ residuo a c m (newtonBruto a c m (11 / 10)) ≤ 5 * 10 ^ 8 * a := by
  have hx : (0 : K) < 11 / 10 := by norm_num
  have hT := anualidadPrima_pos (11 / 10 : K) m hx hm
  have hcT : 0 < c * anualidadPrima (11 / 10 : K) m := mul_pos hc hT
  have hd : c * anualidadPrima (11 / 10 : K) m * (newtonBruto a c m (11 / 10) - 11 / 10)
      = residuo a c m (11 / 10) := by
    have hcT0 := hcT.ne'
    rw [newtonBruto]
    field_simp
    ring
  have hsum := semilla_suma (K := K) m hm24
  have hcs := mul_le_mul_of_nonneg_left hsum hc.le
  have hhalf : 1 / 2 ≤ newtonBruto a c m (11 / 10) := by
    have h0 : 0 ≤ c * anualidadPrima (11 / 10 : K) m * (newtonBruto a c m (11 / 10) - 1 / 2) := by
      have e : c * anualidadPrima (11 / 10 : K) m * (newtonBruto a c m (11 / 10) - 1 / 2)
          = c * anualidadPrima (11 / 10 : K) m * (newtonBruto a c m (11 / 10) - 11 / 10)
            + 3 / 5 * (c * anualidadPrima (11 / 10 : K) m) := by ring
      rw [e, hd, residuo]
      linarith
    have := nonneg_of_mul_nonneg_right h0 hcT
    linarith
  have hy : 0 < newtonBruto a c m (11 / 10) := by linarith
  have hr1 := paso_concavo a c (11 / 10) m hc hm hx hy
  refine ⟨hhalf, hr1, ?_⟩
  rcases le_or_lt 0 (residuo a c m (11 / 10)) with hr0 | hr0
  · obtain ⟨-, -, p3, -⟩ := paso_monotono a c (11 / 10) m ha hc hm hx hr0
    have hm0 : (0 : K) ≤ m := Nat.cast_nonneg m
    have h1 : residuo a c m (newtonBruto a c m (11 / 10)) * ((m : K) + 1)
        ≤ residuo a c m (11 / 10) * ((m : K) + 1) := by
      have : residuo a c m (11 / 10) * (m : K) ≤ residuo a c m (11 / 10) * ((m : K) + 1) :=
        mul_le_mul_of_nonneg_left (by linarith) hr0
      linarith
    have h2 := le_of_mul_le_mul_right h1 (by linarith : (0 : K) < (m : K) + 1)
    have h3 : c * anualidad (11 / 10 : K) m ≤ c * 10 :=
      mul_le_mul_of_nonneg_left (anualidad_semilla_le m) hc.le
    have h4 : residuo a c m (11 / 10) ≤ c * 10 := by
      rw [residuo]
      linarith
    linarith
  · have h1 : c * (10 / 11) ≤ c * anualidad (11 / 10 : K) m :=
      mul_le_mul_of_nonneg_left (anualidad_semilla_ge m hm) hc.le
    have h2 : c * (10 / 11) < a := by
      rw [residuo] at hr0
      linarith
    have h3 : anualidad (newtonBruto a c m (11 / 10)) m ≤ 24 * 2 ^ 24 :=
      (anualidad_le (1 / 2) _ m (by norm_num) hhalf).trans (anualidad_mitad_le m hm24)
    have h4 : c * anualidad (newtonBruto a c m (11 / 10)) m ≤ c * (24 * 2 ^ 24) :=
      mul_le_mul_of_nonneg_left h3 hc.le
    have h5 : residuo a c m (newtonBruto a c m (11 / 10)) ≤ c * (24 * 2 ^ 24) := by
      rw [residuo]
      linarith
    have h6 : c * (24 * 2 ^ 24) ≤ 11 / 10 * a * (24 * 2 ^ 24) := by
      apply mul_le_mul_of_nonneg_right _ (by positivity)
      linarith
    have h7 : (11 / 10 : K) * a * (24 * 2 ^ 24) ≤ 5 * 10 ^ 8 * a := by
      have : (11 / 10 : K) * (24 * 2 ^ 24) ≤ 5 * 10 ^ 8 := by norm_num
      have := mul_le_mul_of_nonneg_right this ha.le
      linarith
    linarith

theorem potencias_plazo (m : ℕ) (hm24 : m ≤ 24) :
    5 * 10 ^ 8 * (2 * ((m : K) + 1)) * (m : K) ^ 700 ≤ ((m : K) + 1) ^ 700 := by
  have hm0 : (0 : K) ≤ m := Nat.cast_nonneg m
  have hm' : (m : K) ≤ 24 := by exact_mod_cast hm24
  have h1 : (25 * (m : K)) ^ 700 ≤ (24 * ((m : K) + 1)) ^ 700 :=
    pow_le_pow_left₀ (by positivity) (by linarith) 700
  rw [mul_pow, mul_pow] at h1
  have hnum : (5 * 10 ^ 8 * (2 * 25) : K) * 24 ^ 700 ≤ 25 ^ 700 := by norm_num
  have h2 : (5 * 10 ^ 8 * (2 * 25) : K) * 24 ^ 700 * (m : K) ^ 700 ≤ 25 ^ 700 * (m : K) ^ 700 :=
    mul_le_mul_of_nonneg_right hnum (by positivity)
  have h3 : (5 * 10 ^ 8 * (2 * ((m : K) + 1)) : K) * (m : K) ^ 700
      ≤ 5 * 10 ^ 8 * (2 * 25) * (m : K) ^ 700 := by
    apply mul_le_mul_of_nonneg_right _ (by positivity)
    linarith
  have h4 : (24 : K) ^ 700 * (5 * 10 ^ 8 * (2 * ((m : K) + 1)) * (m : K) ^ 700)
      ≤ 24 ^ 700 * ((m : K) + 1) ^ 700 := by
    calc (24 : K) ^ 700 * (5 * 10 ^ 8 * (2 * ((m : K) + 1)) * (m : K) ^ 700)
        ≤ 24 ^ 700 * (5 * 10 ^ 8 * (2 * 25) * (m : K) ^ 700) :=
          mul_le_mul_of_nonneg_left h3 (by positivity)
      _ = 5 * 10 ^ 8 * (2 * 25) * 24 ^ 700 * (m : K) ^ 700 := by ring
      _ ≤ 25 ^ 700 * (m : K) ^ 700 := h2
      _ ≤ 24 ^ 700 * ((m : K) + 1) ^ 700 := h1
  exact le_of_mul_le_mul_left h4 (by positivity)

/-! ## The residual after an update shorter than the tolerance -/

/-- From a gross rate `x ≥ 1/2` left of the root, an update shorter than
`1e-10` lands on a residual below `1e-8`. -/
theorem residuo_paso_corto (a c x : K) (m : ℕ) (ha : 0 < a) (ha5 : a ≤ 10 ^ 5) (hc : 0 < c)
    (hm : 0 < m) (hm24 : m ≤ 24) (hx : 1 / 2 ≤ x) (hr : 0 ≤ residuo a c m x)
    (hB : |newtonBruto a c m x - x| < tolerancia) :
    |residuo a c m (newtonBruto a c m x)| < 1 / 10 ^ 8 := by
  obtain ⟨p1, p2, -, -, p5, p6⟩ := paso_monotono a c x m ha hc hm (by linarith) hr
  obtain ⟨y, hy⟩ : ∃ y, y = newtonBruto a c m x := ⟨_, rfl⟩
  rw [← hy] at p1 p2 p5 p6 hB ⊢
  obtain ⟨r, hr'⟩ : ∃ r, r = residuo a c m x := ⟨_, rfl⟩
  obtain ⟨r2, hr2⟩ : ∃ r2, r2 = residuo a c m y := ⟨_, rfl⟩
  rw [← hr'] at hr p5 p6
  rw [← hr2] at p2 p5 ⊢
  have hd0 : 0 ≤ y - x := by linarith
  have hd : y - x < 1 / 10 ^ 10 := by
    have := (abs_lt.mp hB).2
    rw [tolerancia] at this
    norm_num at this ⊢
    linarith
  have hm' : (m : K) ≤ 24 := by exact_mod_cast hm24
  have hm0 : (0 : K) ≤ m := Nat.cast_nonneg m
  have hdm : (y - x) * m ≤ 1 / 10 ^ 10 * 24 := mul_le_mul hd.le hm' hm0 (by positivity)
  have h1 : (y - x) * m * (a + r) ≤ 1 / 10 ^ 10 * 24 * (a + r) :=
    mul_le_mul_of_nonneg_right hdm (by linarith)
  have h2 : 1 / 2 * r ≤ x * r := mul_le_mul_of_nonneg_right hx hr
  have h3 : r ≤ a / 10 ^ 8 := by linarith
  have h4 : ((m : K) + 1) * r * (y - x) ≤ 25 * r * (1 / 10 ^ 10) :=
    mul_le_mul (mul_le_mul_of_nonneg_right (by linarith) hr) hd.le hd0
      (mul_nonneg (by norm_num) hr)
  have h5 : r2 * (1 / 2) ≤ r2 * y := mul_le_mul_of_nonneg_left (by linarith) p2
  rw [abs_of_nonneg p2]
  linarith

/-- From a gross rate `x ≥ 1` right of the root, an update shorter than `1e-10`
lands on a residual below `1e-8`. -/
theorem residuo_paso_corto_derecha (a c x : K) (m : ℕ) (ha : 0 < a) (ha5 : a ≤ 10 ^ 5)
    (hc : 0 < c) (hm : 0 < m) (hm24 : m ≤ 24) (hx : 1 ≤ x) (hr : residuo a c m x < 0)
    (hB : |newtonBruto a c m x - x| < tolerancia) :
    |residuo a c m (newtonBruto a c m x)| < 1 / 10 ^ 8 := by
  have hx0 : 0 < x := by linarith
  have hT := anualidadPrima_pos x m hx0 hm
  have hcT : 0 < c * anualidadPrima x m := mul_pos hc hT
  have hd : c * anualidadPrima x m * (newtonBruto a c m x - x) = residuo a c m x := by
    have hcT0 := hcT.ne'
    rw [newtonBruto]
    field_simp
    ring
  obtain ⟨y, hy⟩ : ∃ y, y = newtonBruto a c m x := ⟨_, rfl⟩
  rw [← hy] at hd hB ⊢
  have hyx : y < x := by
    by_contra h
    have h' : 0 ≤ y - x := by linarith [not_lt.mp h]
    have := mul_nonneg hcT.le h'
    linarith
  have hd1 : x - y < 1 / 10 ^ 10 := by
    have := (abs_lt.mp hB).1
    rw [tolerancia] at this
    norm_num at this ⊢
    linarith
  have hy12 : 1 / 2 ≤ y := by
    have : (1 : K) / 10 ^ 10 ≤ 1 / 2 := by norm_num
    linarith
  have hy0 : 0 < y := by linarith
  have hr2 : 0 ≤ residuo a c m y := by
    rw [hy]
    exact paso_concavo a c x m hc hm hx0 (by rw [← hy]; exact hy0)
  have htan := mul_le_mul_of_nonneg_left (anualidad_tangente y x m hy0 hx0) hc.le
  have hsub := anualidadPrima_sub_le y x m hy0 hyx.le
  have hTy : 0 ≤ anualidadPrima y m := (anualidadPrima_pos y m hy0 hm).le
  have hmp := mul_le_mul_of_nonneg_left (mul_prima_le_anualidad y m hy0) hc.le
  obtain ⟨Ty, hTy'⟩ : ∃ t, t = anualidadPrima y m := ⟨_, rfl⟩
  obtain ⟨Tx, hTx'⟩ : ∃ t, t = anualidadPrima x m := ⟨_, rfl⟩
  obtain ⟨Sy, hSy'⟩ : ∃ t, t = anualidad y m := ⟨_, rfl⟩
  obtain ⟨Sx, hSx'⟩ : ∃ t, t = anualidad x m := ⟨_, rfl⟩
  simp only [residuo] at hd hr hr2 ⊢
  rw [← hTy'] at htan hsub hTy hmp
  rw [← hTx'] at hd hsub
  rw [← hSy'] at htan hmp hr2 ⊢
  rw [← hSx'] at htan hd
  have hm' : (m : K) ≤ 24 := by exact_mod_cast hm24
  have hm0 : (0 : K) ≤ m := Nat.cast_nonneg m
  have hdx : 0 ≤ x - y := by linarith
  -- the difference of the two derivatives
  have h1 : (x - y) / x ≤ x - y := div_le_self hdx hx
  have h2 : ((m : K) + 1) * ((x - y) / x) ≤ 25 * (1 / 10 ^ 10) :=
    mul_le_mul (by linarith) (by linarith) (div_nonneg hdx hx0.le) (by norm_num)
  have h3 : ((m : K) + 1) * ((x - y) / x) * Ty ≤ 25 * (1 / 10 ^ 10) * Ty :=
    mul_le_mul_of_nonneg_right h2 hTy
  have h4 : Ty - Tx ≤ 25 * (1 / 10 ^ 10) * Ty := by linarith
  have h5 : c * (Ty - Tx) ≤ c * (25 * (1 / 10 ^ 10) * Ty) := mul_le_mul_of_nonneg_left h4 hc.le
  have hcTy : 0 ≤ c * (25 * (1 / 10 ^ 10) * Ty) := by positivity
  have h6 : c * (Ty - Tx) * (x - y) ≤ c * (25 * (1 / 10 ^ 10) * Ty) * (1 / 10 ^ 10) := by
    rcases le_or_lt 0 (c * (Ty - Tx)) with h0 | h0
    · exact mul_le_mul h5 hd1.le hdx hcTy
    · have : c * (Ty - Tx) * (x - y) ≤ 0 := mul_nonpos_of_nonpos_of_nonneg h0.le hdx
      have : 0 ≤ c * (25 * (1 / 10 ^ 10) * Ty) * (1 / 10 ^ 10) := by positivity
      linarith
  -- the residual at `y` from the tangent at `y`
  have h7 : c * Sy - a ≤ c * (Ty - Tx) * (x - y) := by
    have e1 : c * (Sy - Ty * (x - y)) = c * Sy - c * Ty * (x - y) := by ring
    have e2 : c * (Ty - Tx) * (x - y) = c * Ty * (x - y) + c * Tx * (y - x) := by ring
    rw [e1] at htan
    rw [e2, hd]
    linarith
  -- the derivative at `y` against the residual at `y`
  have h8 : c * Ty * (1 / 2) ≤ c * Ty * y :=
    mul_le_mul_of_nonneg_left hy12 (mul_nonneg hc.le hTy)
  have h9 : (m : K) * (c * Sy) ≤ 24 * (c * Sy) :=
    mul_le_mul_of_nonneg_right hm' (by linarith)
  have h10 : c * Ty ≤ 48 * (c * Sy) := by
    have e1 : c * (y * Ty) = c * Ty * y := by ring
    have e2 : c * ((m : K) * Sy) = (m : K) * (c * Sy) := by ring
    rw [e1, e2] at hmp
    linarith
  rw [abs_of_nonneg hr2]
  have e3 : c * (25 * (1 / 10 ^ 10) * Ty) * (1 / 10 ^ 10) = 25 / 10 ^ 20 * (c * Ty) := by ring
  rw [e3] at h6
  linarith

/-! ## The run of the solver on at most 24 constant payments -/

/-- On the series `a, -c, ..., -c` of `m ≤ 24` payments with `0 < a ≤ 10^5`,
`a ≤ c * m` and `c ≤ 10^4 * a`, the run of `CalcularTIR` ends by criterion A or
B after at most `707` updates, the net present value at the value returned is
below `1e-8` in absolute value and the value returned is at least `-1/2`. -/
theorem CalcularTIR.corrida_pagos_constantes (a c : K) (m : ℕ) (ha : 0 < a) (ha5 : a ≤ 10 ^ 5)
    (hc : 0 < c) (hm : 0 < m) (hm24 : m ≤ 24) (hac : a ≤ c * m) (hca : c ≤ 10 ^ 4 * a) :
    ((CalcularTIR.corrida (a :: List.replicate m (-c))).terminacion = Terminacion.porValor
        ∨ (CalcularTIR.corrida (a :: List.replicate m (-c))).terminacion = Terminacion.porPaso)
      ∧ (CalcularTIR.corrida (a :: List.replicate m (-c))).actualizaciones ≤ 707
      ∧ |CalcularVPN (a :: List.replicate m (-c)) (CalcularTIR (a :: List.replicate m (-c)))|
          < 1 / 10 ^ 8
      ∧ 1 / 2 ≤ 1 + CalcularTIR (a :: List.replicate m (-c)) := by
  have X : ∀ k, 1 + iterado (a :: List.replicate m (-c)) k
      = (newtonBruto a c m)^[k] (11 / 10) := by
    intro k
    rw [uno_mas_iterado, uno_mas_tasaInicial]
  obtain ⟨h12, hr1, hr1le⟩ := primer_paso a c m ha hc hm hm24 hac hca
  have hx1 : 0 < newtonBruto a c m (11 / 10) := by linarith
  have hinv : ∀ j, 1 / 2 ≤ (newtonBruto a c m)^[j] (newtonBruto a c m (11 / 10))
      ∧ 0 ≤ residuo a c m ((newtonBruto a c m)^[j] (newtonBruto a c m (11 / 10))) := by
    intro j
    obtain ⟨g1, g2, -⟩ := fase_lineal a c _ m ha hc hm hx1 hr1 j
    exact ⟨h12.trans g1, g2⟩
  have hhalf : ∀ k, 1 / 2 ≤ 1 + iterado (a :: List.replicate m (-c)) k := by
    intro k
    rw [X k]
    cases k with
    | zero =>
      rw [Function.iterate_zero, id_eq]
      norm_num
    | succ j =>
      rw [Function.iterate_succ_apply]
      exact (hinv j).1
  have hM : residuo a c m (newtonBruto a c m (11 / 10)) * (2 * ((m : K) + 1)) * (m : K) ^ 700
      ≤ a * ((m : K) + 1) ^ 700 := by
    have hm0 : (0 : K) ≤ m := Nat.cast_nonneg m
    calc residuo a c m (newtonBruto a c m (11 / 10)) * (2 * ((m : K) + 1)) * (m : K) ^ 700
        ≤ 5 * 10 ^ 8 * a * (2 * ((m : K) + 1)) * (m : K) ^ 700 := by
          apply mul_le_mul_of_nonneg_right _ (by positivity)
          exact mul_le_mul_of_nonneg_right hr1le (by positivity)
      _ = a * (5 * 10 ^ 8 * (2 * ((m : K) + 1)) * (m : K) ^ 700) := by ring
      _ ≤ a * ((m : K) + 1) ^ 700 := mul_le_mul_of_nonneg_left (potencias_plazo m hm24) ha.le
  have hA707 : criterioA (a :: List.replicate m (-c)) (iterado (a :: List.replicate m (-c)) 707) := by
    have e : (newtonBruto a c m)^[707] (11 / 10)
        = (newtonBruto a c m)^[6] ((newtonBruto a c m)^[700] (newtonBruto a c m (11 / 10))) :=
      (Function.iterate_add_apply (newtonBruto a c m) 6 701 (11 / 10)).trans
        (congrArg (newtonBruto a c m)^[6]
          (Function.iterate_succ_apply (newtonBruto a c m) 700 (11 / 10)))
    rw [criterioA_iff_residuo, X 707, e]
    exact residuo_tras_fases a c _ m 700 ha ha5 hc hm hx1 hr1 hM
  have htol : (tolerancia : K) < 1 / 10 ^ 8 := by
    rw [tolerancia]
    norm_num
  obtain ⟨k, -, hprev, hcase⟩ := CalcularTIR.corrida_casos (a :: List.replicate m (-c))
  have hk707 : k ≤ 707 := by
    by_contra h
    exact (hprev 707 (not_le.mp h)).1 hA707
  rcases hcase with ⟨-, hA, hcor⟩ | ⟨-, hnA, hB, hcor⟩ | ⟨hk1000, -⟩
  · rw [← CalcularTIR.corrida_resultado, hcor]
    exact ⟨Or.inl rfl, hk707, lt_trans hA htol, hhalf k⟩
  · have hk : k + 1 ≤ 707 := by
      rcases Nat.lt_or_ge k 707 with h | h
      · exact h
      · have : k = 707 := le_antisymm hk707 h
        rw [this] at hnA
        exact absurd hA707 hnA
    rw [← CalcularTIR.corrida_resultado, hcor]
    refine ⟨Or.inr rfl, hk, ?_, hhalf (k + 1)⟩
    show |CalcularVPN (a :: List.replicate m (-c)) (iterado (a :: List.replicate m (-c)) (k + 1))|
      < 1 / 10 ^ 8
    rw [CalcularVPN_eq_neg_residuo, abs_neg, iterado, newtonStep_eq_newtonBruto]
    rw [criterioB_iff_newtonBruto] at hB
    cases k with
    | zero =>
      rw [X 0] at hB ⊢
      simp only [Function.iterate_zero, id_eq] at hB ⊢
      rcases le_or_lt 0 (residuo a c m (11 / 10)) with h0 | h0
      · exact residuo_paso_corto a c _ m ha ha5 hc hm hm24 (by norm_num) h0 hB
      · exact residuo_paso_corto_derecha a c _ m ha ha5 hc hm hm24 (by norm_num) h0 hB
    | succ j =>
      rw [X (j + 1), Function.iterate_succ_apply] at hB ⊢
      exact residuo_paso_corto a c _ m ha ha5 hc hm hm24 (hinv j).1 (hinv j).2 hB
  · omega

/-! ## Convergence of the solver on the sequence built by `CalcularCAT` -/

/-- On the sequence built by `CalcularCAT` for `0 < P ≤ 10^5`, `1 ≤ n ≤ 24`,
`r_annual > 0`, `0 ≤ f_open + c_other < P`, `f_month + ins ≥ 0` and a total
payment of at most `10^4` times the net amount: the run ends by criterion A or
B after at most `707` updates, the net present value at the value returned is
below `1e-8` in absolute value and the value returned is at least `-1/2`. -/
theorem CalcularTIR.corrida_flujosCAT (P : K) (n : ℤ)
    (r_annual f_open f_month ins c_other : K)
    (hP : 0 < P) (hPmax : P ≤ 10 ^ 5) (hn : 0 < n) (hnmax : n ≤ 24)
    (hr0 : 0 < r_annual) (hinicial : 0 ≤ f_open + c_other)
    (hneto : f_open + c_other < P) (hmensual : 0 ≤ f_month + ins)
    (hcota : pagoMensual P n r_annual + f_month + ins ≤ 10 ^ 4 * (P - f_open - c_other)) :
    ((CalcularTIR.corrida (flujosCAT P n r_annual f_open f_month ins c_other)).terminacion
          = Terminacion.porValor
        ∨ (CalcularTIR.corrida (flujosCAT P n r_annual f_open f_month ins c_other)).terminacion
          = Terminacion.porPaso)
      ∧ (CalcularTIR.corrida (flujosCAT P n r_annual f_open f_month ins c_other)).actualizaciones
          ≤ 707
      ∧ |CalcularVPN (flujosCAT P n r_annual f_open f_month ins c_other)
            (CalcularTIR (flujosCAT P n r_annual f_open f_month ins c_other))| < 1 / 10 ^ 8
      ∧ 1 / 2 ≤ 1 + CalcularTIR (flujosCAT P n r_annual f_open f_month ins c_other) := by
  have hm : 0 < n.toNat := by omega
  have hm24 : n.toNat ≤ 24 := by omega
  have ha : 0 < P - f_open - c_other := by linarith
  have ha5 : P - f_open - c_other ≤ 10 ^ 5 := by linarith
  have hpago := pagoMensual_pos P n r_annual hP hn hr0
  have hc : 0 < pagoMensual P n r_annual + f_month + ins := by linarith
  have hx : (1 : K) ≤ 1 + r_annual / 12 := by
    have : 0 < r_annual / 12 := by positivity
    linarith
  have hac : P - f_open - c_other ≤ (pagoMensual P n r_annual + f_month + ins) * n.toNat := by
    have h1 := pagoMensual_mul_anualidad P n r_annual hn hr0
    have h2 : pagoMensual P n r_annual * anualidad (1 + r_annual / 12) n.toNat
        ≤ pagoMensual P n r_annual * n.toNat :=
      mul_le_mul_of_nonneg_left (anualidad_le_plazo _ _ hx) hpago.le
    have h3 : pagoMensual P n r_annual * (n.toNat : K)
        ≤ (pagoMensual P n r_annual + f_month + ins) * n.toNat :=
      mul_le_mul_of_nonneg_right (by linarith) (Nat.cast_nonneg _)
    linarith
  rw [flujosCAT_eq]
  exact CalcularTIR.corrida_pagos_constantes _ _ _ ha ha5 hc hm hm24 hac hcota

/-- C8, amended. For a principal `0 < P ≤ 10^5`, an integer term
`1 ≤ n ≤ 24`, an annual rate `r_annual ≥ 1e-12`, up-front costs with
`0 ≤ f_open + c_other < P`, recurring costs `f_month + ins ≥ 0` and a total
monthly payment of at most `10^4` times the net amount `P - f_open - c_other`,
the run of `CalcularTIR` on the sequence built by `CalcularCAT` ends by
criterion A or by criterion B, never by exhaustion, after at most `707`
updates, and the net present value of the sequence at the value returned is
below `1e-8` in absolute value. -/
theorem CalcularTIR_flujosCAT_converge (P : K) (n : ℤ)
    (r_annual f_open f_month ins c_other : K)
    (hP : 0 < P) (hPmax : P ≤ 10 ^ 5) (hn : 0 < n) (hnmax : n ≤ 24)
    (hr : 1 / 10 ^ 12 ≤ r_annual) (hinicial : 0 ≤ f_open + c_other)
    (hneto : f_open + c_other < P) (hmensual : 0 ≤ f_month + ins)
    (hcota : pagoMensual P n r_annual + f_month + ins ≤ 10 ^ 4 * (P - f_open - c_other)) :
    ((CalcularTIR.corrida (flujosCAT P n r_annual f_open f_month ins c_other)).terminacion
          = Terminacion.porValor
        ∨ (CalcularTIR.corrida (flujosCAT P n r_annual f_open f_month ins c_other)).terminacion
          = Terminacion.porPaso)
      ∧ (CalcularTIR.corrida (flujosCAT P n r_annual f_open f_month ins c_other)).actualizaciones
          ≤ 707
      ∧ |CalcularVPN (flujosCAT P n r_annual f_open f_month ins c_other)
            (CalcularTIR (flujosCAT P n r_annual f_open f_month ins c_other))| < 1 / 10 ^ 8 := by
  have hr0 : 0 < r_annual := lt_of_lt_of_le (by positivity) hr
  obtain ⟨h1, h2, h3, -⟩ := CalcularTIR.corrida_flujosCAT P n r_annual f_open f_month ins c_other
    hP hPmax hn hnmax hr0 hinicial hneto hmensual hcota
  exact ⟨h1, h2, h3⟩

theorem pagoMensual_ejemplo_le : pagoMensual (50000 : ℚ) 24 (6 / 25) ≤ 3000 := by
  have h := pagoMensual_mul_anualidad (50000 : ℚ) 24 (6 / 25) (by norm_num) (by norm_num)
  have hp := pagoMensual_pos (50000 : ℚ) 24 (6 / 25) (by norm_num) (by norm_num) (by norm_num)
  have hS : (50 / 3 : ℚ) ≤ anualidad (1 + 6 / 25 / 12) (24 : ℤ).toNat := by
    have e : (24 : ℤ).toNat = 24 := rfl
    rw [e, anualidad]
    norm_num [Finset.sum_range_succ]
  have h2 : pagoMensual (50000 : ℚ) 24 (6 / 25) * (50 / 3)
      ≤ pagoMensual (50000 : ℚ) 24 (6 / 25) * anualidad (1 + 6 / 25 / 12) (24 : ℤ).toNat :=
    mul_le_mul_of_nonneg_left hS hp.le
  linarith

/-- Witness of C8, amended, at the loan of `EjemploPrestamoPersonal`: `50000`
over `24` months at `24 %`, opening fee `1000`, monthly fee `50`, insurance
`100`, other costs `500`. -/
theorem CalcularTIR_flujosCAT_converge_witness :
    ((CalcularTIR.corrida (flujosCAT (50000 : ℚ) 24 (6 / 25) 1000 50 100 500)).terminacion
          = Terminacion.porValor
        ∨ (CalcularTIR.corrida (flujosCAT (50000 : ℚ) 24 (6 / 25) 1000 50 100 500)).terminacion
          = Terminacion.porPaso)
      ∧ (CalcularTIR.corrida (flujosCAT (50000 : ℚ) 24 (6 / 25) 1000 50 100 500)).actualizaciones
          ≤ 707
      ∧ |CalcularVPN (flujosCAT (50000 : ℚ) 24 (6 / 25) 1000 50 100 500)
            (CalcularTIR (flujosCAT (50000 : ℚ) 24 (6 / 25) 1000 50 100 500))| < 1 / 10 ^ 8 :=
  CalcularTIR_flujosCAT_converge (50000 : ℚ) 24 (6 / 25) 1000 50 100 500 (by norm_num)
    (by norm_num) (by norm_num) (by norm_num) (by norm_num) (by norm_num) (by norm_num)
    (by norm_num) (by
      have := pagoMensual_ejemplo_le
      norm_num at this ⊢
      linarith)

/-! ## Divergence of the solver on a long loan without fees -/

theorem anualidad_cerrada_ne (x : K) (m : ℕ) (hx : x ≠ 0) :
    anualidad x m * ((x - 1) * x ^ m) = x ^ m - 1 := by
  induction m with
  | zero => simp [anualidad]
  | succ m ih =>
    have hs : anualidad x (m + 1) = anualidad x m + 1 / x ^ (m + 1) := by
      rw [anualidad, Finset.sum_range_succ, ← anualidad]
    have h1 : anualidad x m * ((x - 1) * x ^ (m + 1)) = (x ^ m - 1) * x := by
      rw [← ih]
      ring
    have h2 : 1 / x ^ (m + 1) * ((x - 1) * x ^ (m + 1)) = x - 1 := by
      field_simp
    rw [hs, add_mul, h1, h2]
    ring

theorem anualidadPrima_cerrada (x : K) (m : ℕ) (hx : x ≠ 0) :
    anualidadPrima x m * ((x - 1) ^ 2 * x ^ (m + 1)) = x ^ (m + 1) - ((m : K) + 1) * x + m := by
  induction m with
  | zero => simp [anualidadPrima]
  | succ m ih =>
    have hs : anualidadPrima x (m + 1) = anualidadPrima x m + ((m : K) + 1) / x ^ (m + 2) := by
      rw [anualidadPrima, Finset.sum_range_succ, ← anualidadPrima]
    have h1 : anualidadPrima x m * ((x - 1) ^ 2 * x ^ (m + 1 + 1))
        = (x ^ (m + 1) - ((m : K) + 1) * x + m) * x := by
      rw [← ih]
      ring
    have h2 : ((m : K) + 1) / x ^ (m + 2) * ((x - 1) ^ 2 * x ^ (m + 1 + 1))
        = ((m : K) + 1) * (x - 1) ^ 2 := by
      field_simp
      ring
    rw [hs, add_mul, h1, h2]
    push_cast
    ring

/-- At a gross rate `x ≤ -3/2` and an even number `m` of payments with
`2 * m + 1 < (3/2)^m` the sum of the discount factors is negative. -/
theorem anualidad_neg (x : K) (m : ℕ) (hpar : Even m) (hgr : 2 * (m : K) + 1 < (3 / 2) ^ m)
    (hx : x ≤ -(3 / 2)) : anualidad x m < 0 := by
  have hx0 : x ≠ 0 := by
    intro h
    rw [h] at hx
    linarith
  have hm0 : (0 : K) ≤ m := Nat.cast_nonneg m
  have hy32 : 3 / 2 ≤ -x := by linarith
  have hym : (3 / 2 : K) ^ m ≤ (-x) ^ m := pow_le_pow_left₀ (by norm_num) hy32 m
  rw [hpar.neg_pow] at hym
  have h := anualidad_cerrada_ne x m hx0
  by_contra hneg
  have hxm : 0 ≤ x ^ m := by linarith
  have h1 : anualidad x m * ((x - 1) * x ^ m) ≤ 0 := by
    apply mul_nonpos_of_nonneg_of_nonpos (not_lt.mp hneg)
    exact mul_nonpos_of_nonpos_of_nonneg (by linarith) hxm
  linarith

/-- At a gross rate `x ≤ -3/2` and an even number `m` of payments with
`2 * m + 1 < (3/2)^m` the sum `anualidadPrima x m` lies in `(0, 4/25]`. -/
theorem anualidadPrima_negativa (x : K) (m : ℕ) (hpar : Even m)
    (hgr : 2 * (m : K) + 1 < (3 / 2) ^ m) (hx : x ≤ -(3 / 2)) :
    0 < anualidadPrima x m ∧ anualidadPrima x m * (25 / 4) ≤ 1 := by
  have hx0 : x ≠ 0 := by
    intro h
    rw [h] at hx
    linarith
  have hm0 : (0 : K) ≤ m := Nat.cast_nonneg m
  obtain ⟨y, hy⟩ : ∃ y, y = -x := ⟨_, rfl⟩
  have hy32 : 3 / 2 ≤ y := by linarith
  have hxy : x = -y := by linarith
  have hym : (3 / 2 : K) ^ m ≤ y ^ m := pow_le_pow_left₀ (by norm_num) hy32 m
  have hxm1 : x ^ (m + 1) = -(y ^ m * y) := by
    rw [pow_succ, hxy, hpar.neg_pow]
    ring
  have hT := anualidadPrima_cerrada x m hx0
  rw [hxm1] at hT
  have hpos : 0 < y ^ m * y := by positivity
  have hq : ((m : K) + 1) * y + m < y ^ m * y := by
    have h1 : (m : K) ≤ m * y := le_mul_of_one_le_right hm0 (by linarith)
    have h2 : (2 * (m : K) + 1) * y < (3 / 2) ^ m * y :=
      mul_lt_mul_of_pos_right hgr (by linarith)
    have h3 : (3 / 2 : K) ^ m * y ≤ y ^ m * y := mul_le_mul_of_nonneg_right hym (by linarith)
    linarith
  have hsq : (25 / 4 : K) ≤ (x - 1) ^ 2 := by
    have h1 : (5 / 2 : K) ≤ 1 - x := by linarith
    have h2 := pow_le_pow_left₀ (by norm_num : (0 : K) ≤ 5 / 2) h1 2
    have e : (1 - x) ^ 2 = (x - 1) ^ 2 := by ring
    rw [e] at h2
    norm_num at h2
    linarith
  have hsq0 : (0 : K) < (x - 1) ^ 2 := by linarith
  obtain ⟨Q, hQ⟩ : ∃ Q, Q = anualidadPrima x m * (x - 1) ^ 2 := ⟨_, rfl⟩
  have hQp : Q * (y ^ m * y) = y ^ m * y - (((m : K) + 1) * y + m) := by
    have e : anualidadPrima x m * ((x - 1) ^ 2 * -(y ^ m * y)) = -(Q * (y ^ m * y)) := by
      rw [hQ]
      ring
    rw [e, hxy] at hT
    linarith
  have hQ0 : 0 < Q := by
    by_contra hneg
    have : Q * (y ^ m * y) ≤ 0 := mul_nonpos_of_nonpos_of_nonneg (not_lt.mp hneg) hpos.le
    linarith
  have hQ1 : Q ≤ 1 := by
    by_contra hneg
    have h1 : 1 * (y ^ m * y) < Q * (y ^ m * y) := mul_lt_mul_of_pos_right (not_le.mp hneg) hpos
    have h2 : 0 ≤ ((m : K) + 1) * y + m := by positivity
    linarith
  have hT0 : 0 < anualidadPrima x m := by
    by_contra hneg
    have : anualidadPrima x m * (x - 1) ^ 2 ≤ 0 :=
      mul_nonpos_of_nonpos_of_nonneg (not_lt.mp hneg) hsq0.le
    rw [← hQ] at this
    linarith
  refine ⟨hT0, ?_⟩
  have : anualidadPrima x m * (25 / 4) ≤ anualidadPrima x m * (x - 1) ^ 2 :=
    mul_le_mul_of_nonneg_left hsq hT0.le
  rw [← hQ] at this
  linarith

/-- On the series `a, -c, ..., -c` of an even number `m` of payments with
`c ≤ a`, `1 ≤ a` and `2 * m + 1 < (3/2)^m`: from a gross rate `x ≤ -3/2`
neither criterion holds and the next gross rate is again `≤ -3/2`. -/
theorem paso_divergente (a c x : K) (m : ℕ) (hc : 0 < c) (hac : c ≤ a) (ha1 : 1 ≤ a)
    (hpar : Even m) (hgr : 2 * (m : K) + 1 < (3 / 2) ^ m) (hx : x ≤ -(3 / 2)) :
    tolerancia ≤ |residuo a c m x| ∧ tolerancia ≤ |newtonBruto a c m x - x|
      ∧ newtonBruto a c m x ≤ -(3 / 2) := by
  have htol : (tolerancia : K) < 1 := tolerancia_lt_one
  have hS := anualidad_neg x m hpar hgr hx
  obtain ⟨hT0, hT1⟩ := anualidadPrima_negativa x m hpar hgr hx
  have hres : residuo a c m x ≤ -a := by
    have : c * anualidad x m ≤ 0 := mul_nonpos_of_nonneg_of_nonpos hc.le hS.le
    rw [residuo]
    linarith
  have hcT : 0 < c * anualidadPrima x m := mul_pos hc hT0
  have hd : c * anualidadPrima x m * (newtonBruto a c m x - x) = residuo a c m x := by
    have hcT0 := hcT.ne'
    rw [newtonBruto]
    field_simp
    ring
  obtain ⟨d, hd'⟩ : ∃ d, d = newtonBruto a c m x - x := ⟨_, rfl⟩
  obtain ⟨w, hw⟩ : ∃ w, w = c * anualidadPrima x m := ⟨_, rfl⟩
  rw [← hd', ← hw] at hd
  rw [← hw] at hcT
  rw [← hd']
  have hdneg : d < 0 := by
    by_contra hneg
    have := mul_nonneg hcT.le (not_lt.mp hneg)
    linarith
  have hcT1 : w * (25 / 4) ≤ c := by
    have := mul_le_mul_of_nonneg_left hT1 hc.le
    rw [hw]
    linarith
  have hd1 : d ≤ -(25 / 4) := by
    by_contra hneg
    have h1 : -(25 / 4) < d := not_le.mp hneg
    have h2 : w * -(25 / 4) < w * d := mul_lt_mul_of_pos_left h1 hcT
    linarith
  refine ⟨?_, ?_, by linarith⟩
  · rw [abs_of_neg (by linarith)]
    linarith
  · rw [abs_of_neg hdneg]
    linarith

theorem anualidadPrima_semilla_le (m : ℕ) : anualidadPrima (11 / 10 : K) m ≤ 100 := by
  have h := anualidadPrima_cerrada (11 / 10 : K) m (by norm_num)
  have hp : (0 : K) < (11 / 10) ^ (m + 1) := by positivity
  have hm0 : (0 : K) ≤ m := Nat.cast_nonneg m
  have e : anualidadPrima (11 / 10 : K) m * ((11 / 10 - 1) ^ 2 * (11 / 10) ^ (m + 1))
      = anualidadPrima (11 / 10 : K) m / 100 * (11 / 10) ^ (m + 1) := by ring
  rw [e] at h
  have h2 : anualidadPrima (11 / 10 : K) m / 100 * (11 / 10) ^ (m + 1)
      ≤ 1 * (11 / 10) ^ (m + 1) := by
    rw [h]
    linarith
  have h3 := le_of_mul_le_mul_right h2 hp
  linarith

/-- On the series `a, -c, ..., -c` with `310 * c ≤ a` and `1 ≤ a`: at the seed
`0.1` neither criterion holds and the first update lands on a gross rate
`≤ -3/2`. -/
theorem paso_semilla_largo (a c : K) (m : ℕ) (hc : 0 < c) (hm : 0 < m) (hac : 310 * c ≤ a)
    (ha1 : 1 ≤ a) :
    tolerancia ≤ |residuo a c m (11 / 10)|
      ∧ tolerancia ≤ |newtonBruto a c m (11 / 10) - 11 / 10|
      ∧ newtonBruto a c m (11 / 10) ≤ -(3 / 2) := by
  have hx : (0 : K) < 11 / 10 := by norm_num
  have htol : (tolerancia : K) < 1 / 2 := by
    rw [tolerancia]
    norm_num
  have hS := mul_le_mul_of_nonneg_left (anualidad_semilla_le (K := K) m) hc.le
  have hT0 := anualidadPrima_pos (11 / 10 : K) m hx hm
  have hcT : 0 < c * anualidadPrima (11 / 10 : K) m := mul_pos hc hT0
  have hcT1 := mul_le_mul_of_nonneg_left (anualidadPrima_semilla_le (K := K) m) hc.le
  have hres : residuo a c m (11 / 10) ≤ -(300 * c) := by
    rw [residuo]
    linarith
  have hres2 : residuo a c m (11 / 10) ≤ -(1 / 2) := by
    rw [residuo]
    linarith
  have hd : c * anualidadPrima (11 / 10 : K) m * (newtonBruto a c m (11 / 10) - 11 / 10)
      = residuo a c m (11 / 10) := by
    have hcT0 := hcT.ne'
    rw [newtonBruto]
    field_simp
    ring
  obtain ⟨d, hd'⟩ : ∃ d, d = newtonBruto a c m (11 / 10) - 11 / 10 := ⟨_, rfl⟩
  rw [← hd'] at hd ⊢
  have hdneg : d < 0 := by
    by_contra hneg
    have := mul_nonneg hcT.le (not_lt.mp hneg)
    linarith
  have hd1 : d ≤ -3 := by
    by_contra hneg
    have h1 : -3 < d := not_le.mp hneg
    have h2 : c * anualidadPrima (11 / 10 : K) m * -3 < c * anualidadPrima (11 / 10 : K) m * d :=
      mul_lt_mul_of_pos_left h1 hcT
    linarith
  refine ⟨?_, ?_, by linarith⟩
  · rw [abs_of_neg (by linarith)]
    linarith
  · rw [abs_of_neg hdneg]
    linarith

/-- On an even number `m` of payments `c` with `310 * c ≤ a`, `1 ≤ a` and
`2 * m + 1 < (3/2)^m` no iterate meets a criterion. -/
theorem iterado_largo (a c : K) (m : ℕ) (hc : 0 < c) (hm : 0 < m) (hac : 310 * c ≤ a)
    (ha1 : 1 ≤ a) (hpar : Even m) (hgr : 2 * (m : K) + 1 < (3 / 2) ^ m) (k : ℕ) :
    ¬criterioA (a :: List.replicate m (-c)) (iterado (a :: List.replicate m (-c)) k)
      ∧ ¬criterioB (a :: List.replicate m (-c)) (iterado (a :: List.replicate m (-c)) k) := by
  have hca : c ≤ a := by linarith
  have hX : ∀ j, (newtonBruto a c m)^[j + 1] (11 / 10) ≤ -(3 / 2) := by
    intro j
    induction j with
    | zero => exact (paso_semilla_largo a c m hc hm hac ha1).2.2
    | succ j ih =>
      rw [Function.iterate_succ_apply']
      exact (paso_divergente a c _ m hc hca ha1 hpar hgr ih).2.2
  rw [criterioA_iff_residuo, criterioB_iff_newtonBruto, uno_mas_iterado, uno_mas_tasaInicial]
  cases k with
  | zero =>
    obtain ⟨h1, h2, -⟩ := paso_semilla_largo a c m hc hm hac ha1
    exact ⟨not_lt.mpr h1, not_lt.mpr h2⟩
  | succ j =>
    obtain ⟨h1, h2, -⟩ := paso_divergente a c _ m hc hca ha1 hpar hgr (hX j)
    exact ⟨not_lt.mpr h1, not_lt.mpr h2⟩

theorem pagoMensual_largo_le : 310 * pagoMensual (360000 : ℚ) 360 (1 / 100) ≤ 360000 := by
  have h := pagoMensual_mul_anualidad (360000 : ℚ) 360 (1 / 100) (by norm_num) (by norm_num)
  have hp := pagoMensual_pos (360000 : ℚ) 360 (1 / 100) (by norm_num) (by norm_num)
    (by norm_num)
  have e : (360 : ℤ).toNat = 360 := rfl
  rw [e] at h
  have hc := anualidad_cerrada (1 + 1 / 100 / 12 : ℚ) 360 (by norm_num)
  have hpow : (1200 / 890 : ℚ) ≤ (1 + 1 / 100 / 12) ^ 360 := by norm_num
  have hS : (310 : ℚ) ≤ anualidad (1 + 1 / 100 / 12) 360 := by
    have hpos : (0 : ℚ) < (1 + 1 / 100 / 12 - 1) * (1 + 1 / 100 / 12) ^ 360 := by positivity
    have h1 : 310 * ((1 + 1 / 100 / 12 - 1) * (1 + 1 / 100 / 12 : ℚ) ^ 360)
        ≤ anualidad (1 + 1 / 100 / 12) 360
          * ((1 + 1 / 100 / 12 - 1) * (1 + 1 / 100 / 12) ^ 360) := by
      rw [hc]
      linarith
    exact le_of_mul_le_mul_right h1 hpos
  have h2 : pagoMensual (360000 : ℚ) 360 (1 / 100) * 310
      ≤ pagoMensual (360000 : ℚ) 360 (1 / 100) * anualidad (1 + 1 / 100 / 12) 360 :=
    mul_le_mul_of_nonneg_left hS hp.le
  linarith

theorem flujosCAT_ejemplo_largo :
    flujosCAT (360000 : ℚ) 360 (1 / 100) 0 0 0 0
      = 360000 :: List.replicate 360 (-pagoMensual (360000 : ℚ) 360 (1 / 100)) := by
  have e : (360 : ℤ).toNat = 360 := rfl
  rw [flujosCAT_eq, e]
  simp only [sub_zero, add_zero]

/-- Counterexample to C8, on two loans with a positive principal, term and
rate. The first has principal `1000`, term `1`, annual rate `12 %` and an
opening fee of `2000`: the sequence is `[-1000, -1010]`. The second has
principal `360000`, term `360` months, annual rate `1 %` and no fee at all: the
net amount is positive, the first update from the seed `0.1` lands on a gross
rate below `-3/2` and the iterates then decrease without bound. On both the
run of `CalcularTIR` ends by exhaustion, not by criterion A or B. -/
theorem CalcularTIR_flujosCAT_agotado :
    ((0 : ℚ) < 1000 ∧ (0 : ℤ) < 1 ∧ (0 : ℚ) < 12 / 100
        ∧ (CalcularTIR.corrida (flujosCAT (1000 : ℚ) 1 (12 / 100) 2000 0 0 0)).terminacion
            = Terminacion.agotado)
      ∧ ((0 : ℚ) < 360000 ∧ (0 : ℤ) < 360 ∧ (0 : ℚ) < 1 / 100
        ∧ (CalcularTIR.corrida (flujosCAT (360000 : ℚ) 360 (1 / 100) 0 0 0 0)).terminacion
            = Terminacion.agotado) := by
  refine ⟨⟨by norm_num, by norm_num, by norm_num, ?_⟩,
    ⟨by norm_num, by norm_num, by norm_num, ?_⟩⟩
  · rw [flujosCAT_ejemplo_comision, CalcularTIR.corrida_agotada]
    intro k _
    exact (iterado_dos_negativos (-1000 : ℚ) (-1010) (by norm_num [tolerancia]) (by norm_num)
      k).2
  · rw [flujosCAT_ejemplo_largo, CalcularTIR.corrida_agotada]
    intro k _
    exact iterado_largo (360000 : ℚ) _ 360
      (pagoMensual_pos (360000 : ℚ) 360 (1 / 100) (by norm_num) (by norm_num) (by norm_num))
      (by norm_num) pagoMensual_largo_le (by norm_num) ⟨180, rfl⟩ (by norm_num) k

/-! ## Monotonicity of the annual total cost in the nominal rate -/

/-- C10, amended. For a positive principal, a positive integer term, fixed fees
with `comisionesMensuales + seguro ≥ 0` and two annual rates
`1e-12 ≤ r1 < r2`, `CalcularCAT` at `r1` is strictly less than `CalcularCAT` at
`r2` in each of two cases. First: `P ≤ 10^5`, `n ≤ 24`,
`0 ≤ f_open + c_other < P`, the total payment at `r2` is at most `10^4` times
the net amount `P - f_open - c_other`, and the two payments computed by
`CalcularCAT` are far enough apart for the solver to tell them apart:
`(payment(r2) - payment(r1)) * (net - 1e-8) ≥ 2e-8 * (payment(r2) + f_month + ins)`.
Second: the rate returned for `r2` is above `-1`, both runs of `CalcularTIR`
end through criterion A, and
`(payment(r2) - payment(r1)) * Σ_(i=1..n) 1/(1+TIR_2)^i ≥ 2e-10`. -/
theorem CalcularCAT_creciente (P : K) (n : ℤ) (r1 r2 f_open f_month ins c_other : K)
    (hP : 0 < P) (hn : 0 < n) (hr1 : 1 / 10 ^ 12 ≤ r1) (hr12 : r1 < r2)
    (hmensual : 0 ≤ f_month + ins) :
    (P ≤ 10 ^ 5 → n ≤ 24 → 0 ≤ f_open + c_other → f_open + c_other < P →
        pagoMensual P n r2 + f_month + ins ≤ 10 ^ 4 * (P - f_open - c_other) →
        2 / 10 ^ 8 * (pagoMensual P n r2 + f_month + ins)
          ≤ (pagoMensual P n r2 - pagoMensual P n r1) * (P - f_open - c_other - 1 / 10 ^ 8) →
        CalcularCAT P n r1 f_open f_month ins c_other
          < CalcularCAT P n r2 f_open f_month ins c_other)
      ∧ (-1 < CalcularTIR (flujosCAT P n r2 f_open f_month ins c_other) →
        (CalcularTIR.corrida (flujosCAT P n r1 f_open f_month ins c_other)).terminacion
            = Terminacion.porValor →
        (CalcularTIR.corrida (flujosCAT P n r2 f_open f_month ins c_other)).terminacion
            = Terminacion.porValor →
        2 * 1e-10 ≤ (pagoMensual P n r2 - pagoMensual P n r1)
          * ∑ i in Finset.Ico 1 (n.toNat + 1),
              1 / (1 + CalcularTIR (flujosCAT P n r2 f_open f_month ins c_other)) ^ i →
        CalcularCAT P n r1 f_open f_month ins c_other
          < CalcularCAT P n r2 f_open f_month ins c_other) := by
  have hr1pos : 0 < r1 := lt_of_lt_of_le (by positivity) hr1
  have hr2pos : 0 < r2 := hr1pos.trans hr12
  have hpago := pagoMensual_lt P n r1 r2 hP hn hr1pos hr12
  have key : -1 < CalcularTIR (flujosCAT P n r2 f_open f_month ins c_other) →
      CalcularVPN (flujosCAT P n r1 f_open f_month ins c_other)
            (CalcularTIR (flujosCAT P n r1 f_open f_month ins c_other))
          - CalcularVPN (flujosCAT P n r2 f_open f_month ins c_other)
            (CalcularTIR (flujosCAT P n r2 f_open f_month ins c_other))
        < (pagoMensual P n r2 - pagoMensual P n r1)
          * anualidad (1 + CalcularTIR (flujosCAT P n r2 f_open f_month ins c_other)) n.toNat →
        CalcularCAT P n r1 f_open f_month ins c_other
          < CalcularCAT P n r2 f_open f_month ins c_other := by
    intro h2 hres
    have := CalcularTIR_lt_of_residuos P n r1 r2 f_open f_month ins c_other hP hn hr1pos
      hmensual h2 hres
    simp only [CalcularCAT]
    linarith
  constructor
  · intro hPmax hnmax hinicial hneto hcota hgap
    obtain ⟨-, -, hv1, -⟩ := CalcularTIR.corrida_flujosCAT P n r1 f_open f_month ins c_other
      hP hPmax hn hnmax hr1pos hinicial hneto hmensual (by linarith)
    obtain ⟨-, -, hv2, hx2⟩ := CalcularTIR.corrida_flujosCAT P n r2 f_open f_month ins c_other
      hP hPmax hn hnmax hr2pos hinicial hneto hmensual hcota
    refine key (by linarith) ?_
    have e2 := CalcularVPN_cons_replicate (P - f_open - c_other)
      (-(pagoMensual P n r2 + f_month + ins))
      (CalcularTIR (flujosCAT P n r2 f_open f_month ins c_other)) n.toNat
    rw [← flujosCAT_eq] at e2
    rw [abs_lt] at hv1 hv2
    obtain ⟨S, hS⟩ : ∃ S, S
        = anualidad (1 + CalcularTIR (flujosCAT P n r2 f_open f_month ins c_other)) n.toNat :=
      ⟨_, rfl⟩
    rw [← hS] at e2 ⊢
    have hp2 := pagoMensual_pos P n r2 hP hn hr2pos
    have hc2 : 0 < pagoMensual P n r2 + f_month + ins := by linarith
    have hcS : P - f_open - c_other - 1 / 10 ^ 8 < (pagoMensual P n r2 + f_month + ins) * S := by
      have := hv2.2
      rw [e2] at this
      linarith
    have hd : 0 < pagoMensual P n r2 - pagoMensual P n r1 := by linarith
    have h3 : (pagoMensual P n r2 - pagoMensual P n r1) * (P - f_open - c_other - 1 / 10 ^ 8)
        < (pagoMensual P n r2 - pagoMensual P n r1)
          * ((pagoMensual P n r2 + f_month + ins) * S) := mul_lt_mul_of_pos_left hcS hd
    have h4 : (pagoMensual P n r2 + f_month + ins) * (2 / 10 ^ 8)
        < (pagoMensual P n r2 + f_month + ins)
          * ((pagoMensual P n r2 - pagoMensual P n r1) * S) := by
      calc (pagoMensual P n r2 + f_month + ins) * (2 / 10 ^ 8)
          = 2 / 10 ^ 8 * (pagoMensual P n r2 + f_month + ins) := by ring
        _ ≤ (pagoMensual P n r2 - pagoMensual P n r1) * (P - f_open - c_other - 1 / 10 ^ 8) :=
            hgap
        _ < (pagoMensual P n r2 - pagoMensual P n r1)
              * ((pagoMensual P n r2 + f_month + ins) * S) := h3
        _ = (pagoMensual P n r2 + f_month + ins)
              * ((pagoMensual P n r2 - pagoMensual P n r1) * S) := by ring
    have h5 := lt_of_mul_lt_mul_left h4 hc2.le
    linarith [hv1.2, hv2.1]
  · intro h2 hA1 hA2 hgap
    refine key h2 ?_
    rw [← anualidad_eq_sum_Ico] at hgap
    have h1 := CalcularTIR.criterioA_of_porValor _ hA1
    have h2' := CalcularTIR.criterioA_of_porValor _ hA2
    rw [criterioA, abs_lt] at h1 h2'
    have htol : (tolerancia : K) = 1e-10 := rfl
    linarith [h1.2, h2'.1]

theorem pagoMensual_ejemplo_mayor :
    pagoMensual (50000 : ℚ) 24 (6 / 25) + 20 ≤ pagoMensual (50000 : ℚ) 24 (1 / 4)
      ∧ pagoMensual (50000 : ℚ) 24 (1 / 4) ≤ 2700 := by
  norm_num [pagoMensual]

/-- Witness of C10, amended. The first case at the loan of
`EjemploPrestamoPersonal` (`50000` over `24` months, opening fee `1000`, monthly
fee `50`, insurance `100`, other costs `500`) and the annual rates `24 %` and
`25 %`; the second case at principal `1`, term `1`, no fees and the annual
rates `1.2` and `1.200012`, where both runs end through criterion A, at `0.1`
and at `rho_1 = 0.100000999999...`. -/
theorem CalcularCAT_creciente_witness :
    CalcularCAT (50000 : ℚ) 24 (6 / 25) 1000 50 100 500
        < CalcularCAT (50000 : ℚ) 24 (1 / 4) 1000 50 100 500
      ∧ CalcularCAT (1 : ℚ) 1 (6 / 5) 0 0 0 0
        < CalcularCAT (1 : ℚ) 1 (300003 / 250000) 0 0 0 0 := by
  have h1 := pagoMensual_ejemplo_mayor
  have hT : CalcularTIR (flujosCAT (1 : ℚ) 1 (300003 / 250000) 0 0 0 0)
      = iterado [(1 : ℚ), -(1100001 / 1000000)] 1 := by
    rw [flujosCAT_ejemplo_tasa_mayor, CalcularTIR_ejemplo_un_paso]
  constructor
  · refine (CalcularCAT_creciente (50000 : ℚ) 24 (6 / 25) (1 / 4) 1000 50 100 500 (by norm_num)
      (by norm_num) (by norm_num) (by norm_num) (by norm_num)).1 (by norm_num) (by norm_num)
      (by norm_num) (by norm_num) ?_ ?_
    · linarith [h1.2]
    · have h2 : (20 : ℚ) * (50000 - 1000 - 500 - 1 / 10 ^ 8)
          ≤ (pagoMensual (50000 : ℚ) 24 (1 / 4) - pagoMensual (50000 : ℚ) 24 (6 / 25))
            * (50000 - 1000 - 500 - 1 / 10 ^ 8) :=
        mul_le_mul_of_nonneg_right (by linarith [h1.1]) (by norm_num)
      have h3 : (2 / 10 ^ 8 : ℚ) * (pagoMensual (50000 : ℚ) 24 (1 / 4) + 50 + 100)
          ≤ 2 / 10 ^ 8 * (2700 + 50 + 100) :=
        mul_le_mul_of_nonneg_left (by linarith [h1.2]) (by norm_num)
      have h4 : (2 / 10 ^ 8 : ℚ) * (2700 + 50 + 100)
          ≤ 20 * (50000 - 1000 - 500 - 1 / 10 ^ 8) := by norm_num
      linarith
  · refine (CalcularCAT_creciente (1 : ℚ) 1 (6 / 5) (300003 / 250000) 0 0 0 0 (by norm_num)
      (by norm_num) (by norm_num) (by norm_num) (by norm_num)).2 ?_ ?_ ?_ ?_
    · rw [hT]
      norm_num [iterado, tasaInicial, newtonStep_dos]
    · rw [flujosCAT_ejemplo_sin_comision, CalcularTIR.corrida_ejemplo_semilla]
    · rw [flujosCAT_ejemplo_tasa_mayor, CalcularTIR.corrida_ejemplo_un_paso]
    · rw [hT, pagoMensual_un_pago _ _ (by norm_num), pagoMensual_un_pago _ _ (by norm_num)]
      norm_num [iterado, tasaInicial, newtonStep_dos, Finset.sum_Ico_eq_sum_range]

end CalculoCAT
